import Mathlib

/-!
# Project2.js: OBJ parsing, triangle extraction, normal estimation, camera and projection

A shallow embedding of `src/Project2.js`.

* JavaScript strings are lists of characters, JavaScript arrays are lists; the
  fixed-size arrays `vec3`, `vec4`, `mat3`, `mat4` are functions on `Fin n` and
  Mathlib matrices (`mat4(...)` lists its entries row by row).
* `undefined` (an array read outside its bounds) is `none`.
* Numbers read from the text are `JSNumber`: `NaN`, an infinity, or an exact
  rational (the rounding of a decimal literal to binary64, and its overflow to an
  infinity or underflow to zero, are not part of the model).
* Vertex indices are exact integers. JavaScript holds them as binary64 numbers, which
  are exact only up to `2^53 = 9007199254740992` in absolute value; the properties
  that speak of the value of an index are stated for indices within that range.
* The numeric code (normals, camera, projection) is written over an arbitrary field
  with the functions of the JavaScript `Math` object passed as a record; the
  theorems assume that record exact (`JSMath.Exact`), as it is over the reals. Where
  JavaScript would divide by zero and produce an infinity or `NaN`, the model
  returns `none`.
-/

namespace Project2

/-! ## Strings -/

/-- The characters matched by `\s` in a regular expression and removed by
`String.prototype.trim`: ECMAScript WhiteSpace and LineTerminator. -/
def isWhiteSpace (c : Char) : Bool :=
  let n := c.toNat
  n == 0x09 || n == 0x0A || n == 0x0B || n == 0x0C || n == 0x0D || n == 0x20 ||
  n == 0xA0 || n == 0x1680 || (0x2000 ≤ n && n ≤ 0x200A) || n == 0x2028 ||
  n == 0x2029 || n == 0x202F || n == 0x205F || n == 0x3000 || n == 0xFEFF

/-- The method `String.prototype.trim`. -/
def trim (s : List Char) : List Char :=
  ((s.dropWhile isWhiteSpace).reverse.dropWhile isWhiteSpace).reverse

/-- The method `String.prototype.split` for a separator that matches exactly one
character (`'\n'`, `'/'`, `/\s/`): the pieces between the separators, empty pieces
included; the result is never empty. -/
def split (sep : Char → Bool) : List Char → List (List Char)
  | [] => [[]]
  | c :: cs =>
    if sep c then [] :: split sep cs
    else
      match split sep cs with
      | [] => [[c]]
      | w :: ws => (c :: w) :: ws

/-- The regular expression `/^[vV] .*/`, as `exec(line) != null`. -/
def vertexRE : List Char → Bool
  | c :: ' ' :: _ => c == 'v' || c == 'V'
  | _ => false

/-- The regular expression `/^[fF] .*/`, as `exec(line) != null`. -/
def faceRE : List Char → Bool
  | c :: ' ' :: _ => c == 'f' || c == 'F'
  | _ => false

/-- The regular expression `/^vt .*/`, as `exec(line) != null`. -/
def textureRE : List Char → Bool
  | 'v' :: 't' :: ' ' :: _ => true
  | _ => false

/-- The regular expression `/^vn .*/`, as `exec(line) != null`. -/
def normalRE : List Char → Bool
  | 'v' :: 'n' :: ' ' :: _ => true
  | _ => false

/-! ## Numbers read from text -/

/-- A JavaScript number as the parser can produce it. -/
inductive JSNumber where
  | NaN : JSNumber
  | Infinity (negative : Bool) : JSNumber
  | finite (q : ℚ) : JSNumber
  deriving DecidableEq

/-- The value of a character as a digit in the given radix, if it is one. -/
def digitValue (radix : Nat) (c : Char) : Option Nat :=
  let n := c.toNat
  let v : Option Nat :=
    if 48 ≤ n && n ≤ 57 then some (n - 48)
    else if 97 ≤ n && n ≤ 122 then some (n - 87)
    else if 65 ≤ n && n ≤ 90 then some (n - 55)
    else none
  match v with
  | some d => if d < radix then some d else none
  | none => none

/-- The longest prefix of digits of the radix, as digit values, and what follows it. -/
def takeDigits (radix : Nat) : List Char → List Nat × List Char
  | [] => ([], [])
  | c :: cs =>
    match digitValue radix c with
    | some d => let r := takeDigits radix cs; (d :: r.1, r.2)
    | none => ([], c :: cs)

/-- The number written by a list of digit values, most significant first. -/
def digitsValue (radix : Nat) (ds : List Nat) : Nat :=
  ds.foldl (fun acc d => acc * radix + d) 0

/-- An optional sign: whether it is a minus, and the rest of the string. -/
def takeSign : List Char → Bool × List Char
  | '-' :: cs => (true, cs)
  | '+' :: cs => (false, cs)
  | cs => (false, cs)

/-- The global function `parseInt(string)` with no radix argument: leading white
space is skipped, then an optional sign, an optional `0x` or `0X` (radix 16), and the
longest run of digits. The argument `none` is `undefined` (whose string form has no
digits); the result `none` is `NaN`. The result is the exact integer that the digits
write: it is the number JavaScript returns when that integer is at most `2^53` in
absolute value, and beyond that JavaScript returns the integer rounded to binary64. -/
def parseInt : Option (List Char) → Option Int
  | none => none
  | some string =>
  let s := takeSign (string.dropWhile isWhiteSpace)
  let (radix, body) : Nat × List Char :=
    match s.2 with
    | '0' :: 'x' :: cs => (16, cs)
    | '0' :: 'X' :: cs => (16, cs)
    | cs => (10, cs)
  let ds := (takeDigits radix body).1
  if ds.isEmpty then none
  else
    let m : Int := (digitsValue radix ds : Nat)
    some (if s.1 then -m else m)

/-- The exponent part `e`, `E` followed by an optional sign and at least one
digit; `0` when there is no such part. -/
def takeExponent : List Char → Int
  | c :: cs =>
    if c == 'e' || c == 'E' then
      let s := takeSign cs
      let ds := (takeDigits 10 s.2).1
      if ds.isEmpty then 0
      else
        let m : Int := (digitsValue 10 ds : Nat)
        if s.1 then -m else m
    else 0
  | [] => 0

/-- The global function `parseFloat(string)`; the argument `none` is `undefined`
(whose string form is not a number). Leading white space is skipped and the longest
prefix that is a decimal literal is read. The result is the exact value of the
literal: the rounding to binary64, the overflow of a large literal to an infinity and
the underflow of a small one to zero are left out. -/
def parseFloat : Option (List Char) → JSNumber
  | none => JSNumber.NaN
  | some string =>
    let s := takeSign (string.dropWhile isWhiteSpace)
    if "Infinity".toList.isPrefixOf s.2 then JSNumber.Infinity s.1
    else
      let ip := takeDigits 10 s.2
      let fp : List Nat × List Char :=
        match ip.2 with
        | '.' :: cs => takeDigits 10 cs
        | cs => ([], cs)
      if ip.1.isEmpty && fp.1.isEmpty then JSNumber.NaN
      else
        let mantissa : ℚ := (digitsValue 10 (ip.1 ++ fp.1) : Nat)
        let e : Int := takeExponent fp.2 - (fp.1.length : Int)
        let q : ℚ := mantissa * (10 : ℚ) ^ e
        JSNumber.finite (if s.1 then -q else q)

/-! ## The parser -/

/-- A stored triangle `[i, j, k]`: three vertex indices, each an integer or `NaN`
(`none`). -/
abbrev Triangle := Option Int × Option Int × Option Int

/-- The dictionary returned by `SimpleObjParse`. A `vec4` is a function on `Fin 4`,
a `vec3` a function on `Fin 3`, a plain array a list. -/
structure ObjDictionary (α : Type) where
  vertices : List (Fin 4 → α)
  faces : List Triangle
  textures : List (List α)
  normals : List (Fin 3 → α)

/-- The expression `x - 1` for an element `x` read from an array of indices:
`undefined - 1` and `NaN - 1` are `NaN`. The subtraction is exact: it is the JavaScript
result when `x` and `x - 1` are at most `2^53` in absolute value, and beyond that
JavaScript rounds the difference to binary64. -/
def minusOne (x : Option (Option Int)) : Option Int :=
  x.join.map (fun i => i - 1)

/-- The first inner loop of the face branch: `vidxList`, the `parseInt` of the first
`/`-separated part of every field after the first. -/
def faceVidxList (fields : List (List Char)) : List (Option Int) :=
  (fields.drop 1).map (fun field => parseInt ((split (fun c => c == '/') field).get? 0))

/-- The second inner loop of the face branch: the triangles pushed for `vidxList`,
`for (vidx = 1; vidx < vidxList.length - 1; ++vidx)`. -/
def faceTriangles (vidxList : List (Option Int)) : List Triangle :=
  (List.range' 1 (vidxList.length - 2)).map (fun vidx =>
    (minusOne (vidxList.get? 0), minusOne (vidxList.get? vidx),
      minusOne (vidxList.get? (vidx + 1))))

/-- The body of the master loop of `SimpleObjParse` for one element of
`objFileLines`, on the four lists built so far. -/
def parseLine (d : ObjDictionary JSNumber) (objFileLine : List Char) :
    ObjDictionary JSNumber :=
  let line := trim objFileLine
  if vertexRE line then
    let fields := split isWhiteSpace line
    { d with vertices := d.vertices ++
        [![parseFloat (fields.get? 1), parseFloat (fields.get? 2),
           parseFloat (fields.get? 3), JSNumber.finite 1]] }
  else if faceRE line then
    let fields := split isWhiteSpace line
    { d with faces := d.faces ++ faceTriangles (faceVidxList fields) }
  else if textureRE line then
    let fields := split isWhiteSpace line
    { d with textures := d.textures ++
        [[parseFloat (fields.get? 1), parseFloat (fields.get? 2)]] }
  else if normalRE line then
    let fields := split isWhiteSpace line
    { d with normals := d.normals ++
        [![parseFloat (fields.get? 1), parseFloat (fields.get? 2),
           parseFloat (fields.get? 3)]] }
  else d

/-- The array `objFileLines`: the text split at every line feed. -/
def objFileLines (objFileContents : List Char) : List (List Char) :=
  split (fun c => c == '\n') objFileContents

/-- The function `SimpleObjParse`. It has no failure path: it returns a dictionary
for every text. -/
def SimpleObjParse (objFileContents : List Char) : ObjDictionary JSNumber :=
  (objFileLines objFileContents).foldl parseLine
    { vertices := [], faces := [], textures := [], normals := [] }

/-! ## Triangle extraction -/

/-- The array read `vertexList[i]` for a stored index `i`: `undefined` when `i` is
`NaN`, negative, or not below the length. -/
def readAt {V : Type} (vertexList : List V) (i : Option Int) : Option V :=
  match i with
  | some (Int.ofNat k) => vertexList.get? k
  | _ => none

/-- The function `VerySimpleTriangleVertexExtraction`. It has no failure path; a
read outside the vertex list pushes `undefined` (`none`). -/
def VerySimpleTriangleVertexExtraction {α : Type} (objDictionary : ObjDictionary α) :
    List (Option (Fin 4 → α)) :=
  let vertexList := objDictionary.vertices
  let faceList := objDictionary.faces
  faceList.foldl (fun points triangleList =>
    points ++ [readAt vertexList triangleList.1, readAt vertexList triangleList.2.1,
      readAt vertexList triangleList.2.2]) []

/-! ## Numeric helpers -/

/-- The functions and the constant of the JavaScript `Math` object that the program
uses; the program is a function of them. -/
structure JSMath (α : Type) where
  PI : α
  sqrt : α → α
  sin : α → α
  cos : α → α
  tan : α → α

/-- Exact arithmetic for the part of `Math` used by the normals and the camera:
`sqrt` is the non-negative square root and `sin`, `cos` lie on the unit circle. -/
structure JSMath.Exact {α : Type} [LinearOrderedField α] (Math : JSMath α) : Prop where
  sqrt_nonneg : ∀ x, 0 ≤ Math.sqrt x
  sqrt_mul_self : ∀ x, 0 ≤ x → Math.sqrt x * Math.sqrt x = x
  sin_sq_add_cos_sq : ∀ x, Math.sin x * Math.sin x + Math.cos x * Math.cos x = 1

section Numeric

variable {α : Type} [Field α] [DecidableEq α]

/-- Modelled from the spec: `subtract` of the vector library `MV.js`, which is not
part of the source file: the componentwise difference `u - v`. -/
def subtract (u v : Fin 3 → α) : Fin 3 → α :=
  ![u 0 - v 0, u 1 - v 1, u 2 - v 2]

/-- Modelled from the spec: `cross` of `MV.js`, the cross product of two
3-vectors. -/
def cross (u v : Fin 3 → α) : Fin 3 → α :=
  ![u 1 * v 2 - u 2 * v 1, u 2 * v 0 - u 0 * v 2, u 0 * v 1 - u 1 * v 0]

/-- Modelled from the spec: `dot` of `MV.js`, the sum of the componentwise
products. -/
def dot (u v : Fin 3 → α) : α :=
  u 0 * v 0 + u 1 * v 1 + u 2 * v 2

/-- Modelled from the spec: `length` of `MV.js`, `Math.sqrt(dot(u, u))`. -/
def length (Math : JSMath α) (u : Fin 3 → α) : α :=
  Math.sqrt (dot u u)

/-- Modelled from the spec: `normalize` of `MV.js`, every component divided by the
length. It has no zero check: for a vector of length zero the division yields `NaN`
components, which is the result `none`. -/
def normalize (Math : JSMath α) (u : Fin 3 → α) : Option (Fin 3 → α) :=
  let len := length Math u
  if len = 0 then none else some ![u 0 / len, u 1 / len, u 2 / len]

/-- Modelled from the spec: `mult` of `MV.js` for a `mat3` and a `vec3`: the matrix
applied to the vector. -/
def multVec (m : Matrix (Fin 3) (Fin 3) α) (v : Fin 3 → α) : Fin 3 → α :=
  m.mulVec v

/-- Modelled from the spec: `mult` of `MV.js` for two `mat4`: the matrix product. -/
def mult (a b : Matrix (Fin 4) (Fin 4) α) : Matrix (Fin 4) (Fin 4) α :=
  a * b

/-- Modelled from the spec: `inverse` of `MV.js` for a `mat4`: the adjugate divided
by the determinant; the division by a zero determinant is the result `none`. -/
def inverse (m : Matrix (Fin 4) (Fin 4) α) : Option (Matrix (Fin 4) (Fin 4) α) :=
  if m.det = 0 then none else some (m.det⁻¹ • m.adjugate)

/-! ## Normal estimation -/

/-- The function `EstimateNormalsFromTriangles`. The loop takes the points three
at a time; reading a component of a point that is `undefined` (an `undefined`
entry, or fewer than three points left) throws a `TypeError`, the result `none`.
A normal `none` is the `NaN` vector that `normalize` yields for a zero cross
product. -/
def EstimateNormalsFromTriangles (Math : JSMath α) :
    List (Option (Fin 4 → α)) → Option (List (Option (Fin 3 → α)))
  | [] => some []
  | some q0 :: some q1 :: some q2 :: rest =>
    let p0 : Fin 3 → α := ![q0 0, q0 1, q0 2]
    let p1 : Fin 3 → α := ![q1 0, q1 1, q1 2]
    let p2 : Fin 3 → α := ![q2 0, q2 1, q2 2]
    let u1 := subtract p2 p0
    let u2 := subtract p1 p0
    let n := normalize Math (cross u1 u2)
    (EstimateNormalsFromTriangles Math rest).map (fun normals => n :: n :: n :: normals)
  | _ => none

/-! ## Camera and projection -/

/-- The function `GetCameraOrientationMatrix`, of the three global orbit angles
`cameraRotX`, `cameraRotY`, `cameraRotZ`. Every `normalize` and the final `inverse`
may divide by zero, the result `none`. -/
def GetCameraOrientationMatrix (Math : JSMath α) (cameraRotX cameraRotY cameraRotZ : α) :
    Option (Matrix (Fin 4) (Fin 4) α) :=
  let snx := Math.sin (Math.PI * cameraRotX)
  let sny := Math.sin (Math.PI * cameraRotY)
  let snz := Math.sin (Math.PI * cameraRotZ)
  let csx := Math.cos (Math.PI * cameraRotX)
  let csy := Math.cos (Math.PI * cameraRotY)
  let csz := Math.cos (Math.PI * cameraRotZ)
  let xRotMatrix : Matrix (Fin 3) (Fin 3) α :=
    !![1, 0, 0;
       0, csx, -snx;
       0, snx, csx]
  let yRotMatrix : Matrix (Fin 3) (Fin 3) α :=
    !![csy, 0, sny;
       0, 1, 0;
       -sny, 0, csy]
  let zRotMatrix : Matrix (Fin 3) (Fin 3) α :=
    !![csz, -snz, 0;
       snz, csz, 0;
       0, 0, 1]
  let at0 : Fin 3 → α := ![0, 0, -2]
  let at1 := multVec xRotMatrix (multVec yRotMatrix (multVec zRotMatrix at0))
  let eyeX : α := 0
  let eyeY : α := 0
  let eyeZ : α := -1
  let eye : Fin 3 → α := ![eyeX, eyeY, eyeZ]
  let up0 : Fin 3 → α := ![0, 1, 0]
  let up1 := multVec xRotMatrix (multVec yRotMatrix (multVec zRotMatrix up0))
  (normalize Math (subtract eye at1)).bind fun n =>
  (normalize Math up1).bind fun up =>
  (normalize Math (cross up n)).bind fun u =>
  (normalize Math (cross n u)).bind fun v =>
  let T : Matrix (Fin 4) (Fin 4) α :=
    !![1, 0, 0, -eyeX;
       0, 1, 0, -eyeY;
       0, 0, 1, -eyeZ;
       0, 0, 0, 1]
  let A : Matrix (Fin 4) (Fin 4) α :=
    !![u 0, v 0, n 0, 0;
       u 1, v 1, n 1, 0;
       u 2, v 2, n 2, 0;
       0, 0, 0, 1]
  inverse (mult A T)

/-- The function `GetPerspectiveMatrix`, of its three arguments and of the width
and height of the canvas it reads. A zero canvas height, a zero `rgt` or `tp`, or
`fr = nr` make a division by zero, the result `none`: JavaScript still returns a matrix
there, computed through an infinity or `NaN`, which the field does not describe, and the
properties of the matrix are stated for the inputs without such a division. -/
def GetPerspectiveMatrix (Math : JSMath α) (fovy near far canvasWidth canvasHeight : α) :
    Option (Matrix (Fin 4) (Fin 4) α) :=
  if canvasHeight = 0 then none
  else
    let aspectRatio := canvasWidth / canvasHeight
    let fovyRadian := fovy * Math.PI / 180
    let nr := near
    let fr := far
    let tp := nr * Math.tan fovyRadian
    let rgt := tp * aspectRatio
    if rgt = 0 ∨ tp = 0 ∨ fr - nr = 0 then none
    else some
      !![nr / rgt, 0, 0, 0;
         0, nr / tp, 0, 0;
         0, 0, -(fr + nr) / (fr - nr), (-2 * fr * nr) / (fr - nr);
         0, 0, -1, 0]

/-- The projection that `render` builds, `GetPerspectiveMatrix(45, -0.1, 0.9)`, on the
canvas of the page. -/
def renderPerspMatrix (Math : JSMath α) (canvasWidth canvasHeight : α) :
    Option (Matrix (Fin 4) (Fin 4) α) :=
  GetPerspectiveMatrix Math 45 (-0.1) 0.9 canvasWidth canvasHeight

end Numeric

/-! ## Views used to state the properties -/

/-- The triangles that the master loop pushes for one element of `objFileLines`:
those of the face branch, which is taken exactly when `faceRE` matches (a line that
`vertexRE` matches is never matched by `faceRE`). -/
def lineFaces (objFileLine : List Char) : List Triangle :=
  if faceRE (trim objFileLine) then
    faceTriangles (faceVidxList (split isWhiteSpace (trim objFileLine)))
  else []

/-- The vertex that the master loop pushes for one element of `objFileLines`, if it
pushes one. -/
def lineVertex (objFileLine : List Char) : Option (Fin 4 → JSNumber) :=
  if vertexRE (trim objFileLine) then
    let fields := split isWhiteSpace (trim objFileLine)
    some ![parseFloat (fields.get? 1), parseFloat (fields.get? 2),
      parseFloat (fields.get? 3), JSNumber.finite 1]
  else none

/-- The number of vertex references on a line: the length of the `vidxList` that the
face branch builds from it. -/
def vertexReferences (objFileLine : List Char) : Nat :=
  (faceVidxList (split isWhiteSpace (trim objFileLine))).length

/-- Whether the master loop recognises a line: one of its four regular expressions
matches the trimmed line. -/
def recognised (objFileLine : List Char) : Bool :=
  vertexRE (trim objFileLine) || faceRE (trim objFileLine) ||
    textureRE (trim objFileLine) || normalRE (trim objFileLine)

/-- Whether a line is a `vt` or a `vn` line for the master loop. -/
def textureOrNormalLine (objFileLine : List Char) : Bool :=
  textureRE (trim objFileLine) || normalRE (trim objFileLine)

/-- The first `/`-separated part of a token, `token.split('/')[0]`. -/
def firstSubField (token : List Char) : List Char :=
  ((split (fun c => c == '/') token).get? 0).getD []

/-- Whether a stored index lies in `[0, n)`; `NaN` does not. -/
def indexInRange (n : Nat) (i : Option Int) : Bool :=
  match i with
  | some k => decide (0 ≤ k) && decide (k < (n : Int))
  | none => false

/-- The normal that one iteration of the loop of `EstimateNormalsFromTriangles`
computes from three points. -/
def triangleNormal {α : Type} [Field α] [DecidableEq α] (Math : JSMath α)
    (q0 q1 q2 : Fin 4 → α) : Option (Fin 3 → α) :=
  normalize Math (cross (subtract ![q2 0, q2 1, q2 2] ![q0 0, q0 1, q0 2])
    (subtract ![q1 0, q1 1, q1 2] ![q0 0, q0 1, q0 2]))

/-- Three points are collinear (a degenerate triangle): the edge vectors `q1 - q0` and
`q2 - q0`, on the first three components, are linearly dependent. -/
def Collinear {α : Type} [Field α] (q0 q1 q2 : Fin 4 → α) : Prop :=
  ∃ s t : α, (s ≠ 0 ∨ t ≠ 0) ∧
    ∀ i : Fin 3, s * (q1 i.castSucc - q0 i.castSucc) + t * (q2 i.castSucc - q0 i.castSucc) = 0

/-- The vector `at` of `GetCameraOrientationMatrix` after the three rotations. -/
def rotatedAt {α : Type} [Field α] (Math : JSMath α) (cameraRotX cameraRotY cameraRotZ : α) :
    Fin 3 → α :=
  multVec
    !![1, 0, 0;
       0, Math.cos (Math.PI * cameraRotX), -Math.sin (Math.PI * cameraRotX);
       0, Math.sin (Math.PI * cameraRotX), Math.cos (Math.PI * cameraRotX)]
    (multVec
      !![Math.cos (Math.PI * cameraRotY), 0, Math.sin (Math.PI * cameraRotY);
         0, 1, 0;
         -Math.sin (Math.PI * cameraRotY), 0, Math.cos (Math.PI * cameraRotY)]
      (multVec
        !![Math.cos (Math.PI * cameraRotZ), -Math.sin (Math.PI * cameraRotZ), 0;
           Math.sin (Math.PI * cameraRotZ), Math.cos (Math.PI * cameraRotZ), 0;
           0, 0, 1]
        ![0, 0, -2]))

/-- The vector `up` of `GetCameraOrientationMatrix` after the three rotations, before
it is normalised. -/
def rotatedUp {α : Type} [Field α] (Math : JSMath α) (cameraRotX cameraRotY cameraRotZ : α) :
    Fin 3 → α :=
  multVec
    !![1, 0, 0;
       0, Math.cos (Math.PI * cameraRotX), -Math.sin (Math.PI * cameraRotX);
       0, Math.sin (Math.PI * cameraRotX), Math.cos (Math.PI * cameraRotX)]
    (multVec
      !![Math.cos (Math.PI * cameraRotY), 0, Math.sin (Math.PI * cameraRotY);
         0, 1, 0;
         -Math.sin (Math.PI * cameraRotY), 0, Math.cos (Math.PI * cameraRotY)]
      (multVec
        !![Math.cos (Math.PI * cameraRotZ), -Math.sin (Math.PI * cameraRotZ), 0;
           Math.sin (Math.PI * cameraRotZ), Math.cos (Math.PI * cameraRotZ), 0;
           0, 0, 1]
        ![0, 1, 0]))

/-- The degenerate orbit angles: the rotated `up` is parallel to `eye - at`, that is,
their cross product is the zero vector. -/
def Degenerate {α : Type} [Field α] (Math : JSMath α) (cameraRotX cameraRotY cameraRotZ : α) :
    Prop :=
  ∀ i : Fin 3, cross (rotatedUp Math cameraRotX cameraRotY cameraRotZ)
    (subtract ![0, 0, -1] (rotatedAt Math cameraRotX cameraRotY cameraRotZ)) i = 0

/-- The vectors `u`, `v`, `n` of `GetCameraOrientationMatrix`, as it computes them
before it builds `T` and `A`. -/
def viewBasis {α : Type} [Field α] [DecidableEq α] (Math : JSMath α)
    (cameraRotX cameraRotY cameraRotZ : α) :
    Option ((Fin 3 → α) × (Fin 3 → α) × (Fin 3 → α)) :=
  (normalize Math
    (subtract ![0, 0, -1] (rotatedAt Math cameraRotX cameraRotY cameraRotZ))).bind fun n =>
  (normalize Math (rotatedUp Math cameraRotX cameraRotY cameraRotZ)).bind fun up =>
  (normalize Math (cross up n)).bind fun u =>
  (normalize Math (cross n u)).bind fun v =>
  some (u, v, n)

/-- The matrix `A` of `GetCameraOrientationMatrix` before it is multiplied by `T`,
`mat4(u[0], v[0], n[0], 0, u[1], v[1], n[1], 0, u[2], v[2], n[2], 0, 0, 0, 0, 1)`. -/
def basisChange {α : Type} [Field α] (u v n : Fin 3 → α) : Matrix (Fin 4) (Fin 4) α :=
  !![u 0, v 0, n 0, 0;
     u 1, v 1, n 1, 0;
     u 2, v 2, n 2, 0;
     0, 0, 0, 1]

/-- The matrix `T` of `GetCameraOrientationMatrix`, with `eye = (0, 0, -1)`. -/
def eyeTranslation {α : Type} [Field α] : Matrix (Fin 4) (Fin 4) α :=
  !![1, 0, 0, -0;
     0, 1, 0, -0;
     0, 0, 1, - -1;
     0, 0, 0, 1]

/-- The upper-left 3×3 block of a `mat4`. -/
def upperLeft {α : Type} (m : Matrix (Fin 4) (Fin 4) α) : Matrix (Fin 3) (Fin 3) α :=
  !![m 0 0, m 0 1, m 0 2;
     m 1 0, m 1 1, m 1 2;
     m 2 0, m 2 1, m 2 2]

/-! ## Properties of the parser -/

theorem vertexRE_faceRE : ∀ (line : List Char), vertexRE line = true → faceRE line = false
  | [], _ => rfl
  | [_], _ => rfl
  | c :: c2 :: t, h => by
    by_cases h2 : c2 = ' '
    · subst h2
      have hc : c = 'v' ∨ c = 'V' := by simpa [vertexRE] using h
      rcases hc with rfl | rfl <;> rfl
    · unfold vertexRE at h
      split at h
      · rename_i heq
        simp at heq
        exact absurd heq.2.1 h2
      · exact absurd h (by decide)

theorem parseLine_faces (d : ObjDictionary JSNumber) (objFileLine : List Char) :
    (parseLine d objFileLine).faces = d.faces ++ lineFaces objFileLine := by
  cases hv : vertexRE (trim objFileLine)
  · cases hf : faceRE (trim objFileLine)
    · cases ht : textureRE (trim objFileLine) <;> cases hn : normalRE (trim objFileLine) <;>
        simp [parseLine, lineFaces, hv, hf, ht, hn]
    · simp [parseLine, lineFaces, hv, hf]
  · simp [parseLine, lineFaces, hv, vertexRE_faceRE _ hv]

theorem parseLine_vertices (d : ObjDictionary JSNumber) (objFileLine : List Char) :
    (parseLine d objFileLine).vertices = d.vertices ++ (lineVertex objFileLine).toList := by
  cases hv : vertexRE (trim objFileLine)
  · cases hf : faceRE (trim objFileLine)
    · cases ht : textureRE (trim objFileLine) <;> cases hn : normalRE (trim objFileLine) <;>
        simp [parseLine, lineVertex, hv, hf, ht, hn]
    · simp [parseLine, lineVertex, hv, hf]
  · simp [parseLine, lineVertex, hv]

theorem foldl_parseLine_faces (lines : List (List Char)) (d : ObjDictionary JSNumber) :
    (lines.foldl parseLine d).faces = d.faces ++ lines.flatMap lineFaces := by
  induction lines generalizing d with
  | nil => simp
  | cons l ls ih =>
    simp [List.foldl_cons, ih, parseLine_faces, List.flatMap_cons, List.append_assoc]

theorem foldl_parseLine_vertices (lines : List (List Char)) (d : ObjDictionary JSNumber) :
    (lines.foldl parseLine d).vertices =
      d.vertices ++ lines.flatMap (fun l => (lineVertex l).toList) := by
  induction lines generalizing d with
  | nil => simp
  | cons l ls ih =>
    simp [List.foldl_cons, ih, parseLine_vertices, List.flatMap_cons, List.append_assoc]

theorem SimpleObjParse_faces (objFileContents : List Char) :
    (SimpleObjParse objFileContents).faces =
      (objFileLines objFileContents).flatMap lineFaces := by
  simp [SimpleObjParse, foldl_parseLine_faces]

theorem SimpleObjParse_vertices (objFileContents : List Char) :
    (SimpleObjParse objFileContents).vertices =
      (objFileLines objFileContents).flatMap (fun l => (lineVertex l).toList) := by
  simp [SimpleObjParse, foldl_parseLine_vertices]

theorem faceTriangles_length (vidxList : List (Option Int)) :
    (faceTriangles vidxList).length = vidxList.length - 2 := by
  simp [faceTriangles]

theorem faceTriangles_map_some (a : List Int) :
    faceTriangles (a.map some) =
      (List.range (a.length - 2)).map (fun k =>
        (some (a.getD 0 0 - 1), some (a.getD (k + 1) 0 - 1), some (a.getD (k + 2) 0 - 1))) := by
  unfold faceTriangles
  rw [List.range'_eq_map_range, List.map_map, List.length_map]
  apply List.map_congr_left
  intro k hk
  have hk2 : k < a.length - 2 := List.mem_range.mp hk
  have h0 : 0 < a.length := by omega
  have h1 : 1 + k < a.length := by omega
  have h2 : 1 + k + 1 < a.length := by omega
  have e1 : k + 1 = 1 + k := by omega
  have e2 : k + 2 = 1 + k + 1 := by omega
  simp only [Function.comp, minusOne, List.get?_eq_getElem?, List.getElem?_map,
    List.getElem?_eq_getElem h0, List.getElem?_eq_getElem h1, List.getElem?_eq_getElem h2,
    Option.map_some', Option.join, Option.bind_some, id, List.getD_eq_getElem?_getD,
    Option.getD_some, e1, e2]
  rfl


theorem flatMap_lineFaces_length (lines : List (List Char))
    (hvalid : ∀ line ∈ lines, faceRE (trim line) = true → 3 ≤ vertexReferences line) :
    ((lines.flatMap lineFaces).length : Int) =
      ((lines.filter (fun line => faceRE (trim line))).map
        (fun line => (vertexReferences line : Int) - 2)).sum := by
  induction lines with
  | nil => simp
  | cons l ls ih =>
    have ih2 := ih (fun line hl => hvalid line (List.mem_cons_of_mem _ hl))
    rw [List.flatMap_cons, List.length_append, Nat.cast_add, ih2]
    cases hf : faceRE (trim l)
    · simp [lineFaces, hf]
    · have h3 := hvalid l (List.mem_cons_self _ _) hf
      simp only [lineFaces, hf, if_true, faceTriangles_length, List.filter_cons_of_pos,
        List.map_cons, List.sum_cons]
      unfold vertexReferences at h3 ⊢
      omega

/-- C1: a face line whose position indices are `a0, ..., a(N-1)` with `N ≥ 3`, each
within the range `-2^53 < a ≤ 2^53` in which JavaScript numbers hold an index and its
predecessor exactly, makes the master loop of `SimpleObjParse` append to the faces
exactly the fan triangles `(a0-1, a(k+1)-1, a(k+2)-1)` for `k = 0, ..., N-3`, in that
order; the faces of a whole text are what its lines append, in line order; and the
text `f 1 2 3 4` yields exactly `(0,1,2)` and `(0,2,3)`. -/
theorem C1_face_line_fan_triangles :
    (∀ (d : ObjDictionary JSNumber) (objFileLine : List Char) (a : List Int),
      faceRE (trim objFileLine) = true →
      faceVidxList (split isWhiteSpace (trim objFileLine)) = a.map some →
      3 ≤ a.length →
      (∀ x ∈ a, -9007199254740992 < x ∧ x ≤ 9007199254740992) →
      (parseLine d objFileLine).faces = d.faces ++
        (List.range (a.length - 2)).map (fun k =>
          ((some (a.getD 0 0 - 1), some (a.getD (k + 1) 0 - 1),
            some (a.getD (k + 2) 0 - 1)) : Triangle))) ∧
    (∀ objFileContents : List Char,
      (SimpleObjParse objFileContents).faces =
        (objFileLines objFileContents).flatMap (fun objFileLine =>
          (parseLine ⟨[], [], [], []⟩ objFileLine).faces)) ∧
    (SimpleObjParse "f 1 2 3 4".toList).faces =
      [(some 0, some 1, some 2), (some 0, some 2, some 3)] := by
  refine ⟨?_, ?_, by decide⟩
  · intro d objFileLine a hface hidx _ _
    rw [parseLine_faces, lineFaces, if_pos hface, hidx, faceTriangles_map_some]
  · intro objFileContents
    rw [SimpleObjParse_faces]
    congr 1
    funext objFileLine
    simp [parseLine_faces]

/-- Witness of C1: the line `f 3/1/1 5/2/1 7/3/1 4/4/1` pushed after one triangle. -/
theorem C1_face_line_fan_triangles_witness :
    faceRE (trim "f 3/1/1 5/2/1 7/3/1 4/4/1".toList) = true ∧
    faceVidxList (split isWhiteSpace (trim "f 3/1/1 5/2/1 7/3/1 4/4/1".toList)) =
      [3, 5, 7, 4].map some ∧
    3 ≤ [(3 : Int), 5, 7, 4].length ∧
    (∀ x ∈ [(3 : Int), 5, 7, 4], -9007199254740992 < x ∧ x ≤ 9007199254740992) ∧
    (parseLine ⟨[], [(some 0, some 1, some 2)], [], []⟩
        "f 3/1/1 5/2/1 7/3/1 4/4/1".toList).faces =
      [(some 0, some 1, some 2), (some 2, some 4, some 6), (some 2, some 6, some 3)] :=
  ⟨by decide, by decide, by decide, by decide,
    C1_face_line_fan_triangles.1 ⟨[], [(some 0, some 1, some 2)], [], []⟩
      "f 3/1/1 5/2/1 7/3/1 4/4/1".toList [3, 5, 7, 4] (by decide) (by decide) (by decide)
      (by decide)⟩

/-- C2: for every text in which each face line has at least three vertex references
(a valid OBJ text), the number of triangles in the faces returned by `SimpleObjParse`
is the sum over the face lines of the number of vertex references minus two. -/
theorem C2_triangle_count (objFileContents : List Char)
    (hvalid : ∀ line ∈ objFileLines objFileContents,
      faceRE (trim line) = true → 3 ≤ vertexReferences line) :
    ((SimpleObjParse objFileContents).faces.length : Int) =
      (((objFileLines objFileContents).filter (fun line => faceRE (trim line))).map
        (fun line => (vertexReferences line : Int) - 2)).sum := by
  rw [SimpleObjParse_faces]
  exact flatMap_lineFaces_length _ hvalid

/-- Witness of C2: a text with a vertex line, a quad, a blank line and a triangle. -/
theorem C2_triangle_count_witness :
    (∀ line ∈ objFileLines "v 0 0 0\nf 1 2 3 4\n\nF 4/1 3/1 2/1".toList,
      faceRE (trim line) = true → 3 ≤ vertexReferences line) ∧
    ((SimpleObjParse "v 0 0 0\nf 1 2 3 4\n\nF 4/1 3/1 2/1".toList).faces.length : Int) = 3 :=
  ⟨by decide, (C2_triangle_count "v 0 0 0\nf 1 2 3 4\n\nF 4/1 3/1 2/1".toList (by decide)).trans
    (by decide)⟩


/-- C7, as stated, fails: for the text `v 1.0 foo 2.0` `SimpleObjParse` returns a model,
and its only vertex is `(1, NaN, 2, 1)`. -/
theorem C7_counterexample :
    (SimpleObjParse "v 1.0 foo 2.0".toList).vertices =
      [![JSNumber.finite 1, JSNumber.NaN, JSNumber.finite 2, JSNumber.finite 1]] := by
  simp [SimpleObjParse, objFileLines, split, parseLine, trim, vertexRE, parseFloat, takeSign,
    takeDigits, digitValue, digitsValue, takeExponent, isWhiteSpace]
  norm_num

/-- C7, amended: `SimpleObjParse` has no failure path, and a vertex line of the text in
which `parseFloat` reads no number from the coordinate field `i + 1` contributes its
vertex to the returned model with `NaN` as coordinate `i`. -/
theorem C7_non_numeric_field_is_NaN (objFileContents objFileLine : List Char) (i : Fin 3)
    (hline : objFileLine ∈ objFileLines objFileContents)
    (hvertex : vertexRE (trim objFileLine) = true)
    (hfield : parseFloat ((split isWhiteSpace (trim objFileLine)).get? (i.val + 1)) =
      JSNumber.NaN) :
    ∃ v ∈ (SimpleObjParse objFileContents).vertices,
      v = ![parseFloat ((split isWhiteSpace (trim objFileLine)).get? 1),
            parseFloat ((split isWhiteSpace (trim objFileLine)).get? 2),
            parseFloat ((split isWhiteSpace (trim objFileLine)).get? 3),
            JSNumber.finite 1] ∧
      v i.castSucc = JSNumber.NaN := by
  refine ⟨_, ?_, rfl, ?_⟩
  · rw [SimpleObjParse_vertices, List.mem_flatMap]
    exact ⟨objFileLine, hline, by simp [lineVertex, hvertex]⟩
  · fin_cases i
    · simpa using hfield
    · simpa using hfield
    · simpa using hfield

/-- Witness of C7, amended: the second line of a two-line text. -/
theorem C7_non_numeric_field_is_NaN_witness :
    "v 1.0 foo 2.0".toList ∈ objFileLines "v 0 0 0\nv 1.0 foo 2.0".toList ∧
    vertexRE (trim "v 1.0 foo 2.0".toList) = true ∧
    parseFloat ((split isWhiteSpace (trim "v 1.0 foo 2.0".toList)).get? ((1 : Fin 3).val + 1)) =
      JSNumber.NaN ∧
    ∃ v ∈ (SimpleObjParse "v 0 0 0\nv 1.0 foo 2.0".toList).vertices,
      v = ![parseFloat ((split isWhiteSpace (trim "v 1.0 foo 2.0".toList)).get? 1),
            parseFloat ((split isWhiteSpace (trim "v 1.0 foo 2.0".toList)).get? 2),
            parseFloat ((split isWhiteSpace (trim "v 1.0 foo 2.0".toList)).get? 3),
            JSNumber.finite 1] ∧
      v (1 : Fin 3).castSucc = JSNumber.NaN :=
  ⟨by decide, by decide, by decide,
    C7_non_numeric_field_is_NaN "v 0 0 0\nv 1.0 foo 2.0".toList "v 1.0 foo 2.0".toList 1
      (by decide) (by decide) (by decide)⟩


/-! ### Splitting and trimming -/

theorem split_ne_nil (sep : Char → Bool) (s : List Char) : split sep s ≠ [] := by
  induction s with
  | nil => simp [split]
  | cons c cs ih =>
    unfold split
    split_ifs
    · simp
    · split <;> simp

theorem split_of_no_sep (sep : Char → Bool) (s : List Char)
    (h : ∀ c ∈ s, sep c = false) : split sep s = [s] := by
  induction s with
  | nil => rfl
  | cons c cs ih =>
    have hc : sep c = false := h c (List.mem_cons_self _ _)
    have ih2 := ih (fun x hx => h x (List.mem_cons_of_mem _ hx))
    simp [split, hc, ih2]

theorem split_append (sep : Char → Bool) (a b : List Char) (c : Char) (hc : sep c = true) :
    split sep (a ++ c :: b) = split sep a ++ split sep b := by
  induction a with
  | nil => simp [split, hc]
  | cons x xs ih =>
    by_cases hx : sep x = true
    · simp [split, hx, ih]
    · have hx2 : sep x = false := by simpa using hx
      obtain ⟨w, ws, hw⟩ : ∃ w ws, split sep xs = w :: ws := by
        cases h : split sep xs with
        | nil => exact absurd h (split_ne_nil sep xs)
        | cons w ws => exact ⟨w, ws, rfl⟩
      simp [split, hx2, ih, hw]

theorem trim_eq_self (s : List Char) (c : Char) (rest : List Char) (z : Char)
    (front : List Char) (h1 : s = c :: rest) (h2 : s = front ++ [z])
    (hc : isWhiteSpace c = false) (hz : isWhiteSpace z = false) : trim s = s := by
  unfold trim
  have e1 : List.dropWhile isWhiteSpace s = s := by
    rw [h1, List.dropWhile_cons_of_neg (by simp [hc])]
  rw [e1]
  have e2 : s.reverse = z :: front.reverse := by rw [h2]; simp
  rw [e2, List.dropWhile_cons_of_neg (by simp [hz]), ← e2, List.reverse_reverse]

/-! ### The four kinds of line -/

theorem vertexRE_iff (l : List Char) :
    vertexRE l = true ↔ ∃ c rest, l = c :: ' ' :: rest ∧ (c = 'v' ∨ c = 'V') := by
  constructor
  · intro h
    match l, h with
    | c :: c2 :: t, h =>
      by_cases h2 : c2 = ' '
      · subst h2
        exact ⟨c, t, rfl, by simpa [vertexRE] using h⟩
      · unfold vertexRE at h
        split at h
        · rename_i heq
          simp at heq
          exact absurd heq.2.1 h2
        · exact absurd h (by decide)
  · rintro ⟨c, rest, rfl, hc⟩
    rcases hc with rfl | rfl <;> rfl

theorem faceRE_iff (l : List Char) :
    faceRE l = true ↔ ∃ c rest, l = c :: ' ' :: rest ∧ (c = 'f' ∨ c = 'F') := by
  constructor
  · intro h
    match l, h with
    | c :: c2 :: t, h =>
      by_cases h2 : c2 = ' '
      · subst h2
        exact ⟨c, t, rfl, by simpa [faceRE] using h⟩
      · unfold faceRE at h
        split at h
        · rename_i heq
          simp at heq
          exact absurd heq.2.1 h2
        · exact absurd h (by decide)
  · rintro ⟨c, rest, rfl, hc⟩
    rcases hc with rfl | rfl <;> rfl

theorem textureRE_iff (l : List Char) :
    textureRE l = true ↔ ∃ rest, l = 'v' :: 't' :: ' ' :: rest := by
  constructor
  · intro h
    unfold textureRE at h
    split at h
    · exact ⟨_, rfl⟩
    · exact absurd h (by decide)
  · rintro ⟨rest, rfl⟩
    rfl

theorem normalRE_iff (l : List Char) :
    normalRE l = true ↔ ∃ rest, l = 'v' :: 'n' :: ' ' :: rest := by
  constructor
  · intro h
    unfold normalRE at h
    split at h
    · exact ⟨_, rfl⟩
    · exact absurd h (by decide)
  · rintro ⟨rest, rfl⟩
    rfl

theorem textureRE_exclusive (l : List Char) (h : textureRE l = true) :
    vertexRE l = false ∧ faceRE l = false ∧ normalRE l = false := by
  obtain ⟨rest, rfl⟩ := (textureRE_iff l).mp h
  exact ⟨rfl, rfl, rfl⟩

theorem normalRE_exclusive (l : List Char) (h : normalRE l = true) :
    vertexRE l = false ∧ faceRE l = false ∧ textureRE l = false := by
  obtain ⟨rest, rfl⟩ := (normalRE_iff l).mp h
  exact ⟨rfl, rfl, rfl⟩

theorem faceRE_exclusive (l : List Char) (h : faceRE l = true) :
    vertexRE l = false ∧ textureRE l = false ∧ normalRE l = false := by
  obtain ⟨c, rest, rfl, hc⟩ := (faceRE_iff l).mp h
  rcases hc with rfl | rfl <;> exact ⟨rfl, rfl, rfl⟩

theorem vertexRE_exclusive (l : List Char) (h : vertexRE l = true) :
    faceRE l = false ∧ textureRE l = false ∧ normalRE l = false := by
  obtain ⟨c, rest, rfl, hc⟩ := (vertexRE_iff l).mp h
  rcases hc with rfl | rfl <;> exact ⟨rfl, rfl, rfl⟩

theorem parseLine_of_not_recognised (d : ObjDictionary JSNumber) (objFileLine : List Char)
    (h : recognised objFileLine = false) : parseLine d objFileLine = d := by
  simp only [recognised, Bool.or_eq_false_iff] at h
  obtain ⟨⟨⟨hv, hf⟩, ht⟩, hn⟩ := h
  simp [parseLine, hv, hf, ht, hn]

theorem foldl_parseLine_filter_recognised (lines : List (List Char))
    (d : ObjDictionary JSNumber) :
    lines.foldl parseLine d = (lines.filter recognised).foldl parseLine d := by
  induction lines generalizing d with
  | nil => rfl
  | cons l ls ih =>
    cases h : recognised l
    · rw [List.foldl_cons, parseLine_of_not_recognised d l h, ih, List.filter_cons_of_neg]
      simp [h]
    · rw [List.foldl_cons, ih, List.filter_cons_of_pos h, List.foldl_cons]

theorem flatMap_filter_of_nil {β γ : Type} (f : β → List γ) (p : β → Bool)
    (h : ∀ b, p b = false → f b = []) (l : List β) :
    l.flatMap f = (l.filter p).flatMap f := by
  induction l with
  | nil => rfl
  | cons b bs ih =>
    cases hb : p b
    · rw [List.flatMap_cons, h b hb, List.nil_append, ih, List.filter_cons_of_neg]
      simp [hb]
    · rw [List.flatMap_cons, ih, List.filter_cons_of_pos hb, List.flatMap_cons]

theorem lineFaces_of_textureOrNormal (l : List Char)
    (h : (!textureOrNormalLine l) = false) : lineFaces l = [] := by
  have h2 : textureRE (trim l) = true ∨ normalRE (trim l) = true := by
    cases ht : textureRE (trim l)
    · right
      simpa [textureOrNormalLine, ht] using h
    · left
      rfl
  rcases h2 with h2 | h2
  · simp [lineFaces, (textureRE_exclusive _ h2).2.1]
  · simp [lineFaces, (normalRE_exclusive _ h2).2.1]

theorem lineVertex_of_textureOrNormal (l : List Char)
    (h : (!textureOrNormalLine l) = false) : (lineVertex l).toList = [] := by
  have h2 : textureRE (trim l) = true ∨ normalRE (trim l) = true := by
    cases ht : textureRE (trim l)
    · right
      simpa [textureOrNormalLine, ht] using h
    · left
      rfl
  rcases h2 with h2 | h2
  · simp [lineVertex, (textureRE_exclusive _ h2).1]
  · simp [lineVertex, (normalRE_exclusive _ h2).1]

theorem split_head_no_sep (sep : Char → Bool) (s : List Char) :
    ∃ w ws, split sep s = w :: ws ∧ ∀ c ∈ w, sep c = false := by
  induction s with
  | nil => exact ⟨[], [], rfl, by simp⟩
  | cons x xs ih =>
    obtain ⟨w, ws, hw, hno⟩ := ih
    by_cases hx : sep x = true
    · exact ⟨[], split sep xs, by simp [split, hx], by simp⟩
    · have hx2 : sep x = false := by simpa using hx
      refine ⟨x :: w, ws, by simp [split, hx2, hw], ?_⟩
      intro c hc
      rcases List.mem_cons.mp hc with rfl | hc
      · exact hx2
      · exact hno c hc

theorem split_firstSubField (token : List Char) :
    (split (fun c => c == '/') (firstSubField token)).get? 0 =
      (split (fun c => c == '/') token).get? 0 := by
  obtain ⟨w, ws, hw, hno⟩ := split_head_no_sep (fun c => c == '/') token
  have hf : firstSubField token = w := by simp [firstSubField, hw]
  rw [hf, split_of_no_sep _ w hno, hw]
  rfl

theorem faceVidxList_map_firstSubField (fields : List (List Char)) :
    faceVidxList (fields.map firstSubField) = faceVidxList fields := by
  unfold faceVidxList
  rw [← List.map_drop, List.map_map]
  apply List.map_congr_left
  intro field _
  show parseInt ((split (fun c => c == '/') (firstSubField field)).get? 0) = _
  rw [split_firstSubField]

/-- C14, as stated, fails: in the line `v<TAB>1 2 3` the first token is `v`, separated
from the rest by a tab, and `SimpleObjParse` appends no vertex (it changes no list). -/
theorem C14_counterexample :
    (split isWhiteSpace (trim "v\t1 2 3".toList)).get? 0 = some "v".toList ∧
    (SimpleObjParse "v\t1 2 3".toList).vertices.length = 0 ∧
    (SimpleObjParse "v 1 2 3".toList).vertices.length = 1 := by
  decide

/-- C14, amended: the master loop classifies the trimmed line by its first characters.
`v` or `V` followed by a space character appends one vertex and changes nothing else,
`f` or `F` followed by a space appends to the faces only, `vt` followed by a space
appends one entry to the textures only, `vn` followed by a space one entry to the
normals only, at most one of these holds, and any other line changes nothing. -/
theorem C14_line_classification (d : ObjDictionary JSNumber) (objFileLine : List Char) :
    (vertexRE (trim objFileLine) = true ↔
      ∃ c rest, trim objFileLine = c :: ' ' :: rest ∧ (c = 'v' ∨ c = 'V')) ∧
    (faceRE (trim objFileLine) = true ↔
      ∃ c rest, trim objFileLine = c :: ' ' :: rest ∧ (c = 'f' ∨ c = 'F')) ∧
    (textureRE (trim objFileLine) = true ↔
      ∃ rest, trim objFileLine = 'v' :: 't' :: ' ' :: rest) ∧
    (normalRE (trim objFileLine) = true ↔
      ∃ rest, trim objFileLine = 'v' :: 'n' :: ' ' :: rest) ∧
    [vertexRE (trim objFileLine), faceRE (trim objFileLine), textureRE (trim objFileLine),
      normalRE (trim objFileLine)].count true ≤ 1 ∧
    (vertexRE (trim objFileLine) = true →
      ∃ v, parseLine d objFileLine = { d with vertices := d.vertices ++ [v] }) ∧
    (faceRE (trim objFileLine) = true →
      ∃ ts, parseLine d objFileLine = { d with faces := d.faces ++ ts }) ∧
    (textureRE (trim objFileLine) = true →
      ∃ t, parseLine d objFileLine = { d with textures := d.textures ++ [t] }) ∧
    (normalRE (trim objFileLine) = true →
      ∃ n, parseLine d objFileLine = { d with normals := d.normals ++ [n] }) ∧
    (recognised objFileLine = false → parseLine d objFileLine = d) := by
  refine ⟨vertexRE_iff _, faceRE_iff _, textureRE_iff _, normalRE_iff _, ?_, ?_, ?_, ?_, ?_,
    parseLine_of_not_recognised d objFileLine⟩
  · cases hv : vertexRE (trim objFileLine)
    · cases hf : faceRE (trim objFileLine)
      · cases ht : textureRE (trim objFileLine)
        · cases hn : normalRE (trim objFileLine) <;> decide
        · rw [(textureRE_exclusive _ ht).2.2]
          decide
      · rw [(faceRE_exclusive _ hf).2.1, (faceRE_exclusive _ hf).2.2]
        decide
    · rw [(vertexRE_exclusive _ hv).1, (vertexRE_exclusive _ hv).2.1,
        (vertexRE_exclusive _ hv).2.2]
      decide
  · intro hv
    exact ⟨![parseFloat ((split isWhiteSpace (trim objFileLine)).get? 1),
      parseFloat ((split isWhiteSpace (trim objFileLine)).get? 2),
      parseFloat ((split isWhiteSpace (trim objFileLine)).get? 3), JSNumber.finite 1],
      by simp [parseLine, hv]⟩
  · intro hf
    exact ⟨faceTriangles (faceVidxList (split isWhiteSpace (trim objFileLine))),
      by simp [parseLine, hf, (faceRE_exclusive _ hf).1]⟩
  · intro ht
    obtain ⟨h1, h2, _⟩ := textureRE_exclusive _ ht
    exact ⟨[parseFloat ((split isWhiteSpace (trim objFileLine)).get? 1),
      parseFloat ((split isWhiteSpace (trim objFileLine)).get? 2)],
      by simp [parseLine, ht, h1, h2]⟩
  · intro hn
    obtain ⟨h1, h2, h3⟩ := normalRE_exclusive _ hn
    exact ⟨![parseFloat ((split isWhiteSpace (trim objFileLine)).get? 1),
      parseFloat ((split isWhiteSpace (trim objFileLine)).get? 2),
      parseFloat ((split isWhiteSpace (trim objFileLine)).get? 3)],
      by simp [parseLine, hn, h1, h2, h3]⟩

/-- C15: if the lines of two texts correspond one to one, each line of the second being
either the same line or a face line whose fields are those of a face line of the first
with every token replaced by its first `/`-separated part, then `SimpleObjParse` returns
the same faces list for both. -/
theorem C15_faces_use_first_subfield (text1 text2 : List Char)
    (h : List.Forall₂ (fun l1 l2 => l1 = l2 ∨
        (faceRE (trim l1) = true ∧ faceRE (trim l2) = true ∧
          split isWhiteSpace (trim l2) = (split isWhiteSpace (trim l1)).map firstSubField))
      (objFileLines text1) (objFileLines text2)) :
    (SimpleObjParse text2).faces = (SimpleObjParse text1).faces := by
  rw [SimpleObjParse_faces, SimpleObjParse_faces]
  generalize objFileLines text1 = lines1 at h
  generalize objFileLines text2 = lines2 at h
  induction h with
  | nil => rfl
  | cons hl _ ih =>
    rw [List.flatMap_cons, List.flatMap_cons, ih]
    congr 1
    rcases hl with rfl | ⟨h1, h2, hf⟩
    · rfl
    · simp only [lineFaces, h1, h2, if_true, hf, faceVidxList_map_firstSubField]

/-- Witness of C15: `f 1/1/1 2/2/1 3//1 4/7` against `f 1 2 3 4`. -/
theorem C15_faces_use_first_subfield_witness :
    List.Forall₂ (fun l1 l2 => l1 = l2 ∨
        (faceRE (trim l1) = true ∧ faceRE (trim l2) = true ∧
          split isWhiteSpace (trim l2) = (split isWhiteSpace (trim l1)).map firstSubField))
      (objFileLines "v 0 0 0\nf 1/1/1 2/2/1 3//1 4/7".toList)
      (objFileLines "v 0 0 0\nf 1 2 3 4".toList) ∧
    (SimpleObjParse "v 0 0 0\nf 1 2 3 4".toList).faces =
      (SimpleObjParse "v 0 0 0\nf 1/1/1 2/2/1 3//1 4/7".toList).faces :=
  have hrel : List.Forall₂ (fun l1 l2 => l1 = l2 ∨
        (faceRE (trim l1) = true ∧ faceRE (trim l2) = true ∧
          split isWhiteSpace (trim l2) = (split isWhiteSpace (trim l1)).map firstSubField))
      (objFileLines "v 0 0 0\nf 1/1/1 2/2/1 3//1 4/7".toList)
      (objFileLines "v 0 0 0\nf 1 2 3 4".toList) :=
    List.Forall₂.cons (Or.inl rfl)
      (List.Forall₂.cons (Or.inr ⟨by decide, by decide, by decide⟩) List.Forall₂.nil)
  ⟨hrel, C15_faces_use_first_subfield _ _ hrel⟩

theorem objFileLines_append (a b : List Char) :
    objFileLines (a ++ '\n' :: b) = objFileLines a ++ objFileLines b :=
  split_append (fun c => c == '\n') a b '\n' rfl

theorem objFileLines_single (line : List Char) (h : ∀ c ∈ line, c ≠ '\n') :
    objFileLines line = [line] :=
  split_of_no_sep _ line (fun c hc => by simpa using h c hc)

/-- C18: a line that none of the four regular expressions matches is skipped. Two texts
whose recognised lines are the same, in the same order, give the same four lists; so
inserting or removing an unrecognised line at the start, in the middle or at the end of
a text changes nothing; and a comment, a blank line and the directives `o`, `g`, `s`,
`usemtl` are unrecognised. -/
theorem C18_unrecognised_lines_skipped :
    (∀ text1 text2 : List Char,
      (objFileLines text1).filter recognised = (objFileLines text2).filter recognised →
      SimpleObjParse text1 = SimpleObjParse text2) ∧
    (∀ before line after : List Char, (∀ c ∈ line, c ≠ '\n') → recognised line = false →
      SimpleObjParse (before ++ '\n' :: line ++ '\n' :: after) =
        SimpleObjParse (before ++ '\n' :: after) ∧
      SimpleObjParse (line ++ '\n' :: after) = SimpleObjParse after ∧
      SimpleObjParse (before ++ '\n' :: line) = SimpleObjParse before) ∧
    recognised "# a comment".toList = false ∧ recognised "".toList = false ∧
    recognised "  \t ".toList = false ∧ recognised "o teapot".toList = false ∧
    recognised "g lid".toList = false ∧ recognised "s off".toList = false ∧
    recognised "usemtl white".toList = false := by
  have key : ∀ text1 text2 : List Char,
      (objFileLines text1).filter recognised = (objFileLines text2).filter recognised →
      SimpleObjParse text1 = SimpleObjParse text2 := by
    intro text1 text2 h
    unfold SimpleObjParse
    rw [foldl_parseLine_filter_recognised (objFileLines text1),
      foldl_parseLine_filter_recognised (objFileLines text2), h]
  refine ⟨key, ?_, by decide, by decide, by decide, by decide, by decide, by decide,
    by decide⟩
  intro before line after hline hrec
  have hsingle := objFileLines_single line hline
  refine ⟨key _ _ ?_, key _ _ ?_, key _ _ ?_⟩
  · have e : before ++ '\n' :: line ++ '\n' :: after =
        before ++ '\n' :: (line ++ '\n' :: after) := by simp
    rw [e, objFileLines_append, objFileLines_append, objFileLines_append, hsingle]
    simp [List.filter_append, hrec]
  · rw [objFileLines_append, hsingle]
    simp [hrec]
  · rw [objFileLines_append, hsingle]
    simp [List.filter_append, hrec]

/-- Witness of C18: a comment line inserted between a vertex line and a face line. -/
theorem C18_unrecognised_lines_skipped_witness :
    (∀ c ∈ "# a comment".toList, c ≠ '\n') ∧ recognised "# a comment".toList = false ∧
    SimpleObjParse ("v 0 0 0".toList ++ '\n' :: "# a comment".toList ++
        '\n' :: "f 1 1 1".toList) =
      SimpleObjParse ("v 0 0 0".toList ++ '\n' :: "f 1 1 1".toList) :=
  ⟨by decide, by decide,
    (C18_unrecognised_lines_skipped.2.1 "v 0 0 0".toList "# a comment".toList
      "f 1 1 1".toList (by decide) (by decide)).1⟩

/-- C19: for every text the vertices returned by `SimpleObjParse` are, in file order,
one vertex for each line that `vertexRE` matches, and that vertex is
`(parseFloat(fields[1]), parseFloat(fields[2]), parseFloat(fields[3]), 1)`; for a line
`v x y z` with single spaces these are the values `parseFloat` reads from `x`, `y`, `z`;
and `v 1.5 -2 3e1` gives `(1.5, -2, 30, 1)`. -/
theorem C19_one_vertex_per_vertex_line :
    (∀ objFileContents : List Char,
      (SimpleObjParse objFileContents).vertices =
        ((objFileLines objFileContents).filter (fun l => vertexRE (trim l))).map (fun l =>
          ![parseFloat ((split isWhiteSpace (trim l)).get? 1),
            parseFloat ((split isWhiteSpace (trim l)).get? 2),
            parseFloat ((split isWhiteSpace (trim l)).get? 3), JSNumber.finite 1])) ∧
    (∀ (d : ObjDictionary JSNumber) (c : Char) (x y z : List Char), (c = 'v' ∨ c = 'V') →
      (∀ a ∈ x, isWhiteSpace a = false) → (∀ a ∈ y, isWhiteSpace a = false) →
      (∀ a ∈ z, isWhiteSpace a = false) → z ≠ [] →
      parseLine d (c :: ' ' :: x ++ ' ' :: y ++ ' ' :: z) =
        { d with vertices := d.vertices ++
          [![parseFloat (some x), parseFloat (some y), parseFloat (some z),
            JSNumber.finite 1]] }) ∧
    (SimpleObjParse "v 1.5 -2 3e1\nf 1 1 1\nV 0 0 0".toList).vertices =
      [![JSNumber.finite (3 / 2), JSNumber.finite (-2), JSNumber.finite 30, JSNumber.finite 1],
        ![JSNumber.finite 0, JSNumber.finite 0, JSNumber.finite 0, JSNumber.finite 1]] := by
  refine ⟨?_, ?_, ?_⟩
  · intro objFileContents
    rw [SimpleObjParse_vertices]
    induction objFileLines objFileContents with
    | nil => rfl
    | cons l ls ih =>
      rw [List.flatMap_cons, ih]
      cases hv : vertexRE (trim l)
      · rw [List.filter_cons_of_neg (by simp [hv])]
        simp [lineVertex, hv]
      · rw [List.filter_cons_of_pos (by simp [hv])]
        simp [lineVertex, hv]
  · intro d c x y z hc hx hy hz hz0
    have hcw : isWhiteSpace c = false := by rcases hc with rfl | rfl <;> rfl
    obtain ⟨front, zl, hzl⟩ : ∃ front zl, z = front ++ [zl] :=
      ⟨z.dropLast, z.getLast hz0, (List.dropLast_append_getLast hz0).symm⟩
    have hzlw : isWhiteSpace zl = false := hz zl (by rw [hzl]; simp)
    have htrim : trim (c :: ' ' :: x ++ ' ' :: y ++ ' ' :: z) =
        c :: ' ' :: x ++ ' ' :: y ++ ' ' :: z :=
      trim_eq_self _ c (' ' :: x ++ ' ' :: y ++ ' ' :: z) zl
        (c :: ' ' :: x ++ ' ' :: y ++ ' ' :: front) (by simp) (by rw [hzl]; simp) hcw hzlw
    have hsp : isWhiteSpace ' ' = true := rfl
    have hfields : split isWhiteSpace (c :: ' ' :: x ++ ' ' :: y ++ ' ' :: z) =
        [[c], x, y, z] := by
      have e : c :: ' ' :: x ++ ' ' :: y ++ ' ' :: z =
          [c] ++ ' ' :: (x ++ ' ' :: (y ++ ' ' :: z)) := by simp
      rw [e, split_append _ _ _ _ hsp, split_append _ _ _ _ hsp, split_append _ _ _ _ hsp,
        split_of_no_sep _ [c] (by simpa using hcw), split_of_no_sep _ x hx,
        split_of_no_sep _ y hy, split_of_no_sep _ z hz]
      rfl
    have hv : vertexRE (c :: ' ' :: x ++ ' ' :: y ++ ' ' :: z) = true := by
      rcases hc with rfl | rfl <;> rfl
    simp only [parseLine, htrim, hv, if_true, hfields]
    rfl
  · simp [SimpleObjParse, objFileLines, split, parseLine, trim, vertexRE, faceRE, parseFloat,
      takeSign, takeDigits, digitValue, digitsValue, takeExponent, isWhiteSpace]
    norm_num

/-- Witness of C19: the line `v 1.5 -2 3e1` pushed on the empty dictionary. -/
theorem C19_one_vertex_per_vertex_line_witness :
    ('v' = 'v' ∨ 'v' = 'V') ∧ (∀ a ∈ "1.5".toList, isWhiteSpace a = false) ∧
    (∀ a ∈ "-2".toList, isWhiteSpace a = false) ∧
    (∀ a ∈ "3e1".toList, isWhiteSpace a = false) ∧ "3e1".toList ≠ [] ∧
    parseLine ⟨[], [], [], []⟩ ('v' :: ' ' :: "1.5".toList ++ ' ' :: "-2".toList ++
        ' ' :: "3e1".toList) =
      { vertices := [] ++ [![parseFloat (some "1.5".toList), parseFloat (some "-2".toList),
          parseFloat (some "3e1".toList), JSNumber.finite 1]],
        faces := [], textures := [], normals := [] } :=
  ⟨by decide, by decide, by decide, by decide, by decide,
    C19_one_vertex_per_vertex_line.2.1 ⟨[], [], [], []⟩ 'v' "1.5".toList "-2".toList
      "3e1".toList (by decide) (by decide) (by decide) (by decide) (by decide)⟩

/-! ### Lines are processed independently -/

theorem parseLine_append (d : ObjDictionary JSNumber) (objFileLine : List Char) :
    (parseLine d objFileLine).vertices =
      d.vertices ++ (parseLine ⟨[], [], [], []⟩ objFileLine).vertices ∧
    (parseLine d objFileLine).faces =
      d.faces ++ (parseLine ⟨[], [], [], []⟩ objFileLine).faces ∧
    (parseLine d objFileLine).textures =
      d.textures ++ (parseLine ⟨[], [], [], []⟩ objFileLine).textures ∧
    (parseLine d objFileLine).normals =
      d.normals ++ (parseLine ⟨[], [], [], []⟩ objFileLine).normals := by
  cases hv : vertexRE (trim objFileLine)
  · cases hf : faceRE (trim objFileLine)
    · cases ht : textureRE (trim objFileLine)
      · cases hn : normalRE (trim objFileLine) <;> simp [parseLine, hv, hf, ht, hn]
      · simp [parseLine, hv, hf, ht]
    · simp [parseLine, hv, hf]
  · simp [parseLine, hv]

theorem foldl_parseLine_append (lines : List (List Char)) (d : ObjDictionary JSNumber) :
    (lines.foldl parseLine d).vertices =
      d.vertices ++ (lines.foldl parseLine ⟨[], [], [], []⟩).vertices ∧
    (lines.foldl parseLine d).faces =
      d.faces ++ (lines.foldl parseLine ⟨[], [], [], []⟩).faces ∧
    (lines.foldl parseLine d).textures =
      d.textures ++ (lines.foldl parseLine ⟨[], [], [], []⟩).textures ∧
    (lines.foldl parseLine d).normals =
      d.normals ++ (lines.foldl parseLine ⟨[], [], [], []⟩).normals := by
  induction lines generalizing d with
  | nil => simp
  | cons l ls ih =>
    obtain ⟨a1, a2, a3, a4⟩ := ih (parseLine d l)
    obtain ⟨b1, b2, b3, b4⟩ := ih (parseLine ⟨[], [], [], []⟩ l)
    obtain ⟨c1, c2, c3, c4⟩ := parseLine_append d l
    simp only [List.foldl_cons]
    rw [a1, a2, a3, a4, b1, b2, b3, b4, c1, c2, c3, c4]
    simp [List.append_assoc]

/-- C24: for all texts `a` and `b`, each of the four lists of
`SimpleObjParse(a + "\n" + b)` is the list of `SimpleObjParse(a)` followed by that of
`SimpleObjParse(b)`; so when `a` has no face line, the faces are the same whether `a`
comes before or after `b`, as for a vertex line and a face line that refers to it. -/
theorem C24_lines_independent (a b : List Char) :
    (SimpleObjParse (a ++ '\n' :: b)).vertices =
      (SimpleObjParse a).vertices ++ (SimpleObjParse b).vertices ∧
    (SimpleObjParse (a ++ '\n' :: b)).faces =
      (SimpleObjParse a).faces ++ (SimpleObjParse b).faces ∧
    (SimpleObjParse (a ++ '\n' :: b)).textures =
      (SimpleObjParse a).textures ++ (SimpleObjParse b).textures ∧
    (SimpleObjParse (a ++ '\n' :: b)).normals =
      (SimpleObjParse a).normals ++ (SimpleObjParse b).normals ∧
    ((SimpleObjParse a).faces = [] →
      (SimpleObjParse (a ++ '\n' :: b)).faces = (SimpleObjParse (b ++ '\n' :: a)).faces) ∧
    (SimpleObjParse ("v 0 0 0".toList ++ '\n' :: "f 1 1 1".toList)).faces =
      (SimpleObjParse ("f 1 1 1".toList ++ '\n' :: "v 0 0 0".toList)).faces := by
  have key : ∀ x y : List Char,
      (SimpleObjParse (x ++ '\n' :: y)).vertices =
        (SimpleObjParse x).vertices ++ (SimpleObjParse y).vertices ∧
      (SimpleObjParse (x ++ '\n' :: y)).faces =
        (SimpleObjParse x).faces ++ (SimpleObjParse y).faces ∧
      (SimpleObjParse (x ++ '\n' :: y)).textures =
        (SimpleObjParse x).textures ++ (SimpleObjParse y).textures ∧
      (SimpleObjParse (x ++ '\n' :: y)).normals =
        (SimpleObjParse x).normals ++ (SimpleObjParse y).normals := by
    intro x y
    unfold SimpleObjParse
    rw [objFileLines_append, List.foldl_append]
    exact foldl_parseLine_append (objFileLines y) _
  obtain ⟨k1, k2, k3, k4⟩ := key a b
  refine ⟨k1, k2, k3, k4, ?_, by decide⟩
  intro ha
  rw [k2, (key b a).2.1, ha]
  simp

/-! ## Properties of the triangle extraction -/

theorem extraction_foldl {α : Type} (vertexList : List (Fin 4 → α)) (faceList : List Triangle)
    (points : List (Option (Fin 4 → α))) :
    faceList.foldl (fun points triangleList =>
      points ++ [readAt vertexList triangleList.1, readAt vertexList triangleList.2.1,
        readAt vertexList triangleList.2.2]) points =
    points ++ faceList.flatMap (fun t =>
      [readAt vertexList t.1, readAt vertexList t.2.1, readAt vertexList t.2.2]) := by
  induction faceList generalizing points with
  | nil => simp
  | cons t ts ih => simp [List.foldl_cons, ih, List.flatMap_cons, List.append_assoc]

theorem extraction_eq_flatMap {α : Type} (d : ObjDictionary α) :
    VerySimpleTriangleVertexExtraction d =
      d.faces.flatMap (fun t =>
        [readAt d.vertices t.1, readAt d.vertices t.2.1, readAt d.vertices t.2.2]) := by
  simp [VerySimpleTriangleVertexExtraction, extraction_foldl]

theorem flatMap_triple_length {β γ : Type} (l : List β) (f g h : β → γ) :
    (l.flatMap (fun t => [f t, g t, h t])).length = 3 * l.length := by
  induction l with
  | nil => simp
  | cons t ts ih => simp [List.flatMap_cons, ih]; omega

theorem flatMap_triple_get {β γ : Type} (l : List β) (f g h : β → γ) (i : Nat) (t : β)
    (ht : l.get? i = some t) :
    (l.flatMap (fun t => [f t, g t, h t])).get? (3 * i) = some (f t) ∧
    (l.flatMap (fun t => [f t, g t, h t])).get? (3 * i + 1) = some (g t) ∧
    (l.flatMap (fun t => [f t, g t, h t])).get? (3 * i + 2) = some (h t) := by
  induction l generalizing i with
  | nil => simp at ht
  | cons x xs ih =>
    cases i with
    | zero =>
      simp at ht
      subst ht
      simp [List.flatMap_cons]
    | succ j =>
      have hj : xs.get? j = some t := by simpa using ht
      have := ih j hj
      have e0 : 3 * (j + 1) = 3 * j + 1 + 1 + 1 := by ring
      have e1 : 3 * (j + 1) + 1 = 3 * j + 1 + 1 + 1 + 1 := by ring
      have e2 : 3 * (j + 1) + 2 = 3 * j + 2 + 1 + 1 + 1 := by ring
      rw [e1, e2, e0]
      simpa [List.flatMap_cons] using this

theorem readAt_isSome {V : Type} (vertexList : List V) (i : Option Int) :
    (readAt vertexList i).isSome = indexInRange vertexList.length i := by
  unfold readAt indexInRange
  rcases i with _ | (k | k)
  · rfl
  · by_cases h : k < vertexList.length
    · simp [List.getElem?_eq_getElem h, h]
    · have h2 : vertexList.length ≤ k := by omega
      simp [List.getElem?_eq_none h2, h]
  · simp


theorem readAt_of_inRange {V : Type} (vertexList : List V) (i : Int)
    (h : indexInRange vertexList.length (some i) = true) :
    ∃ v, vertexList.get? i.toNat = some v ∧ readAt vertexList (some i) = some v := by
  have hs := readAt_isSome vertexList (some i)
  rw [h] at hs
  obtain ⟨v, hv⟩ := Option.isSome_iff_exists.mp hs
  refine ⟨v, ?_, hv⟩
  rcases i with k | k
  · simpa [readAt] using hv
  · simp [readAt] at hv

/-- C3: for a model whose stored indices all lie in `[0, len(vertices))`,
`VerySimpleTriangleVertexExtraction` returns `3 * len(faces)` points and the points at
`3f`, `3f+1`, `3f+2` are the vertices `vertices[i]`, `vertices[j]`, `vertices[k]` of the
stored triangle `faces[f] = (i, j, k)`, all defined, repeated as often as they are
referenced. -/
theorem C3_extraction_resolves_triangles {α : Type} (d : ObjDictionary α)
    (hrange : ∀ t ∈ d.faces, indexInRange d.vertices.length t.1 = true ∧
      indexInRange d.vertices.length t.2.1 = true ∧
      indexInRange d.vertices.length t.2.2 = true) :
    (VerySimpleTriangleVertexExtraction d).length = 3 * d.faces.length ∧
    ∀ (f : Nat) (i j k : Int), d.faces.get? f = some (some i, some j, some k) →
      ∃ vi vj vk, d.vertices.get? i.toNat = some vi ∧ d.vertices.get? j.toNat = some vj ∧
        d.vertices.get? k.toNat = some vk ∧
        (VerySimpleTriangleVertexExtraction d).get? (3 * f) = some (some vi) ∧
        (VerySimpleTriangleVertexExtraction d).get? (3 * f + 1) = some (some vj) ∧
        (VerySimpleTriangleVertexExtraction d).get? (3 * f + 2) = some (some vk) := by
  rw [extraction_eq_flatMap]
  refine ⟨flatMap_triple_length _ _ _ _, ?_⟩
  intro f i j k hf
  have hmem : (some i, some j, some k) ∈ d.faces := List.get?_mem hf
  obtain ⟨hi, hj, hk⟩ := hrange _ hmem
  obtain ⟨vi, hvi, ri⟩ := readAt_of_inRange d.vertices i hi
  obtain ⟨vj, hvj, rj⟩ := readAt_of_inRange d.vertices j hj
  obtain ⟨vk, hvk, rk⟩ := readAt_of_inRange d.vertices k hk
  have hg := flatMap_triple_get d.faces (fun t => readAt d.vertices t.1)
    (fun t => readAt d.vertices t.2.1) (fun t => readAt d.vertices t.2.2) f _ hf
  simp only [ri, rj, rk] at hg
  exact ⟨vi, vj, vk, hvi, hvj, hvk, hg.1, hg.2.1, hg.2.2⟩

/-- Witness of C3: two vertices and the triangle `(0, 1, 0)`. -/
theorem C3_extraction_resolves_triangles_witness :
    (∀ t ∈ [((some 0, some 1, some 0) : Triangle)],
      indexInRange [(![0, 0, 0, 1] : Fin 4 → ℚ), ![1, 0, 0, 1]].length t.1 = true ∧
      indexInRange [(![0, 0, 0, 1] : Fin 4 → ℚ), ![1, 0, 0, 1]].length t.2.1 = true ∧
      indexInRange [(![0, 0, 0, 1] : Fin 4 → ℚ), ![1, 0, 0, 1]].length t.2.2 = true) ∧
    (VerySimpleTriangleVertexExtraction
      (⟨[![0, 0, 0, 1], ![1, 0, 0, 1]], [(some 0, some 1, some 0)], [], []⟩ :
        ObjDictionary ℚ)).length = 3 :=
  ⟨by decide, (C3_extraction_resolves_triangles
    (⟨[![0, 0, 0, 1], ![1, 0, 0, 1]], [(some 0, some 1, some 0)], [], []⟩ : ObjDictionary ℚ)
    (by decide)).1⟩

/-- C8, as stated, fails: the text `v 0 0 0` / `f 1 2 3` stores the indices `1` and `2`,
which lie outside `[0, 1)`, and `VerySimpleTriangleVertexExtraction` returns a point
list all the same, with `undefined` at their places. -/
theorem C8_counterexample :
    (SimpleObjParse "v 0 0 0\nf 1 2 3".toList).faces = [(some 0, some 1, some 2)] ∧
    (SimpleObjParse "v 0 0 0\nf 1 2 3".toList).vertices.length = 1 ∧
    indexInRange 1 (some 1) = false ∧
    (VerySimpleTriangleVertexExtraction (SimpleObjParse "v 0 0 0\nf 1 2 3".toList)).map
      Option.isSome = [true, false, false] := by
  decide

/-- C8, amended: `VerySimpleTriangleVertexExtraction` has no failure path. For every
model it returns `3 * len(faces)` entries, and the entry for a stored index is
`undefined` exactly when that index lies outside `[0, len(vertices))`. -/
theorem C8_extraction_total {α : Type} (d : ObjDictionary α) :
    (VerySimpleTriangleVertexExtraction d).length = 3 * d.faces.length ∧
    ∀ (f : Nat) (t : Triangle), d.faces.get? f = some t →
      ∃ p0 p1 p2, (VerySimpleTriangleVertexExtraction d).get? (3 * f) = some p0 ∧
        (VerySimpleTriangleVertexExtraction d).get? (3 * f + 1) = some p1 ∧
        (VerySimpleTriangleVertexExtraction d).get? (3 * f + 2) = some p2 ∧
        (p0 = none ↔ indexInRange d.vertices.length t.1 = false) ∧
        (p1 = none ↔ indexInRange d.vertices.length t.2.1 = false) ∧
        (p2 = none ↔ indexInRange d.vertices.length t.2.2 = false) := by
  rw [extraction_eq_flatMap]
  refine ⟨flatMap_triple_length _ _ _ _, ?_⟩
  intro f t hf
  have hg := flatMap_triple_get d.faces (fun t => readAt d.vertices t.1)
    (fun t => readAt d.vertices t.2.1) (fun t => readAt d.vertices t.2.2) f _ hf
  have key : ∀ i : Option Int,
      readAt d.vertices i = none ↔ indexInRange d.vertices.length i = false := by
    intro i
    rw [← readAt_isSome]
    cases readAt d.vertices i <;> simp
  exact ⟨_, _, _, hg.1, hg.2.1, hg.2.2, key _, key _, key _⟩


/-- C16: if two texts have the same lines once their `vt` and `vn` lines are removed,
then `VerySimpleTriangleVertexExtraction(SimpleObjParse(text))` is the same point list
for both, and so is the result of `EstimateNormalsFromTriangles` on it, whatever field
the numbers are read in. -/
theorem C16_declared_normals_unused (text1 text2 : List Char)
    (h : (objFileLines text1).filter (fun l => !textureOrNormalLine l) =
      (objFileLines text2).filter (fun l => !textureOrNormalLine l)) :
    VerySimpleTriangleVertexExtraction (SimpleObjParse text1) =
      VerySimpleTriangleVertexExtraction (SimpleObjParse text2) ∧
    ∀ (α : Type) [Field α] [DecidableEq α] (Math : JSMath α) (number : JSNumber → α),
      EstimateNormalsFromTriangles Math
        ((VerySimpleTriangleVertexExtraction (SimpleObjParse text1)).map
          (Option.map (fun p i => number (p i)))) =
      EstimateNormalsFromTriangles Math
        ((VerySimpleTriangleVertexExtraction (SimpleObjParse text2)).map
          (Option.map (fun p i => number (p i)))) := by
  have hf : (SimpleObjParse text1).faces = (SimpleObjParse text2).faces := by
    rw [SimpleObjParse_faces, SimpleObjParse_faces,
      flatMap_filter_of_nil lineFaces _ lineFaces_of_textureOrNormal (objFileLines text1),
      flatMap_filter_of_nil lineFaces _ lineFaces_of_textureOrNormal (objFileLines text2), h]
  have hv : (SimpleObjParse text1).vertices = (SimpleObjParse text2).vertices := by
    rw [SimpleObjParse_vertices, SimpleObjParse_vertices,
      flatMap_filter_of_nil _ _ lineVertex_of_textureOrNormal (objFileLines text1),
      flatMap_filter_of_nil _ _ lineVertex_of_textureOrNormal (objFileLines text2), h]
  have hp : VerySimpleTriangleVertexExtraction (SimpleObjParse text1) =
      VerySimpleTriangleVertexExtraction (SimpleObjParse text2) := by
    rw [extraction_eq_flatMap, extraction_eq_flatMap, hf, hv]
  exact ⟨hp, fun α _ _ Math number => by rw [hp]⟩

/-- Witness of C16: a text with and without its `vt` and `vn` lines. -/
theorem C16_declared_normals_unused_witness :
    ((objFileLines "v 0 0 0\nvn 0 0 1\nvt 0.5 0.5\nf 1 1 1".toList).filter
        (fun l => !textureOrNormalLine l) =
      (objFileLines "v 0 0 0\nf 1 1 1".toList).filter (fun l => !textureOrNormalLine l)) ∧
    VerySimpleTriangleVertexExtraction
        (SimpleObjParse "v 0 0 0\nvn 0 0 1\nvt 0.5 0.5\nf 1 1 1".toList) =
      VerySimpleTriangleVertexExtraction (SimpleObjParse "v 0 0 0\nf 1 1 1".toList) :=
  ⟨by decide, (C16_declared_normals_unused _ _ (by decide)).1⟩

/-! ## Properties of the normal estimation -/

section Normals

variable {α : Type} [LinearOrderedField α]

/-! Exact arithmetic and the algebra of `dot`, `cross` and `normalize`. -/

theorem exact_sqrt_one (Math : JSMath α) (hM : Math.Exact) : Math.sqrt 1 = 1 := by
  have h1 := hM.sqrt_mul_self 1 zero_le_one
  have h0 := hM.sqrt_nonneg 1
  nlinarith

theorem real_exact :
    JSMath.Exact (⟨Real.pi, Real.sqrt, Real.sin, Real.cos, Real.tan⟩ : JSMath ℝ) where
  sqrt_nonneg := Real.sqrt_nonneg
  sqrt_mul_self := fun x hx => Real.mul_self_sqrt hx
  sin_sq_add_cos_sq := fun x => by
    have := Real.sin_sq_add_cos_sq x
    simpa [sq] using this

theorem normalize_of_pos (Math : JSMath α) (hM : Math.Exact) (c : Fin 3 → α)
    (hpos : 0 < dot c c) :
    length Math c ≠ 0 ∧ length Math c * length Math c = dot c c ∧
      normalize Math c =
        some ![c 0 / length Math c, c 1 / length Math c, c 2 / length Math c] := by
  have hL : length Math c * length Math c = dot c c := hM.sqrt_mul_self _ hpos.le
  have hL0 : length Math c ≠ 0 := by
    intro h
    rw [h, mul_zero] at hL
    exact absurd hL.symm hpos.ne'
  exact ⟨hL0, hL, by simp [normalize, hL0]⟩

theorem dot_pos_of_ne_zero (c : Fin 3 → α) (i : Fin 3) (hi : c i ≠ 0) : 0 < dot c c := by
  unfold dot
  fin_cases i
  · have h : 0 < c 0 * c 0 := mul_self_pos.mpr hi
    linarith [mul_self_nonneg (c 1), mul_self_nonneg (c 2)]
  · have h : 0 < c 1 * c 1 := mul_self_pos.mpr hi
    linarith [mul_self_nonneg (c 0), mul_self_nonneg (c 2)]
  · have h : 0 < c 2 * c 2 := mul_self_pos.mpr hi
    linarith [mul_self_nonneg (c 0), mul_self_nonneg (c 1)]

theorem dot_scale (c x : Fin 3 → α) (L : α) :
    dot ![c 0 / L, c 1 / L, c 2 / L] x = dot c x / L := by
  simp [dot]
  ring

theorem dot_comm (x y : Fin 3 → α) : dot x y = dot y x := by
  simp [dot]
  ring

theorem dot_cross_left (x y : Fin 3 → α) : dot (cross x y) x = 0 := by
  simp [dot, cross]
  ring

theorem dot_cross_right (x y : Fin 3 → α) : dot (cross x y) y = 0 := by
  simp [dot, cross]
  ring

theorem dot_cross_cross (x y : Fin 3 → α) :
    dot (cross x y) (cross x y) = dot x x * dot y y - dot x y * dot x y := by
  simp [dot, cross]
  ring

theorem dot_scale_self (c : Fin 3 → α) (L : α) (hL0 : L ≠ 0) (hL : L * L = dot c c) :
    dot ![c 0 / L, c 1 / L, c 2 / L] ![c 0 / L, c 1 / L, c 2 / L] = 1 := by
  rw [dot_scale, dot_comm, dot_scale, ← hL]
  field_simp

theorem estimate_cons3 (Math : JSMath α) (q0 q1 q2 : Fin 4 → α)
    (rest : List (Option (Fin 4 → α))) :
    EstimateNormalsFromTriangles Math (some q0 :: some q1 :: some q2 :: rest) =
      (EstimateNormalsFromTriangles Math rest).map (fun normals =>
        triangleNormal Math q0 q1 q2 :: triangleNormal Math q0 q1 q2 ::
          triangleNormal Math q0 q1 q2 :: normals) := by
  simp [EstimateNormalsFromTriangles, triangleNormal]

theorem estimate_spec (Math : JSMath α) (n : Nat) :
    ∀ pts : List (Fin 4 → α), pts.length = 3 * n →
      ∃ normals, EstimateNormalsFromTriangles Math (pts.map some) = some normals ∧
        normals.length = pts.length ∧
        ∀ (k : Nat) (q0 q1 q2 : Fin 4 → α), pts.get? (3 * k) = some q0 →
          pts.get? (3 * k + 1) = some q1 → pts.get? (3 * k + 2) = some q2 →
          normals.get? (3 * k) = some (triangleNormal Math q0 q1 q2) ∧
          normals.get? (3 * k + 1) = some (triangleNormal Math q0 q1 q2) ∧
          normals.get? (3 * k + 2) = some (triangleNormal Math q0 q1 q2) := by
  induction n with
  | zero =>
    intro pts h
    have : pts = [] := List.length_eq_zero.mp (by simpa using h)
    subst this
    exact ⟨[], by simp [EstimateNormalsFromTriangles], rfl, by simp⟩
  | succ m ih =>
    intro pts h
    match pts, h with
    | a :: b :: c :: rest, h =>
      have hr : rest.length = 3 * m := by simp at h; omega
      obtain ⟨normals, he, hl, hk⟩ := ih rest hr
      refine ⟨triangleNormal Math a b c :: triangleNormal Math a b c ::
        triangleNormal Math a b c :: normals, ?_, ?_, ?_⟩
      · simp [List.map_cons, estimate_cons3, he]
      · simp [hl]
      · intro k q0 q1 q2 h0 h1 h2
        cases k with
        | zero =>
          simp at h0 h1 h2
          subst h0 h1 h2
          simp
        | succ j =>
          have e0 : 3 * (j + 1) = 3 * j + 1 + 1 + 1 := by ring
          have e1 : 3 * (j + 1) + 1 = 3 * j + 1 + 1 + 1 + 1 := by ring
          have e2 : 3 * (j + 1) + 2 = 3 * j + 2 + 1 + 1 + 1 := by ring
          rw [e1, e2, e0] at *
          simp only [List.get?_cons_succ] at h0 h1 h2 ⊢
          exact hk j q0 q1 q2 h0 h1 h2
    | [], h => simp at h
    | [_], h => simp at h; omega
    | [_, _], h => simp at h; omega



theorem estimate_ignores_w (Math : JSMath α) (w : (Fin 4 → α) → α) :
    ∀ pts : List (Fin 4 → α),
      EstimateNormalsFromTriangles Math (pts.map (fun q => some ![q 0, q 1, q 2, w q])) =
        EstimateNormalsFromTriangles Math (pts.map some)
  | [] => rfl
  | [_] => by simp [EstimateNormalsFromTriangles]
  | [_, _] => by simp [EstimateNormalsFromTriangles]
  | a :: b :: c :: rest => by
    simp only [List.map_cons, estimate_cons3, estimate_ignores_w Math w rest]
    rfl

/-- C4: for a point list of whole triangles `EstimateNormalsFromTriangles` returns, at
the place of every triangle `(q0, q1, q2)`, the normal `normalize(cross(p2 - p0, p1 - p0))`
where `pi` are the first three components of `qi`; the fourth component of the points
has no influence on the result; and the triangle `(0,0,0)`, `(1,0,0)`, `(0,1,0)` yields
the normal `(0,0,-1)`. -/
theorem C4_triangle_normal_formula (Math : JSMath α) (hM : Math.Exact) :
    (∀ pts : List (Fin 4 → α), pts.length % 3 = 0 →
      ∃ normals, EstimateNormalsFromTriangles Math (pts.map some) = some normals ∧
        ∀ (k : Nat) (q0 q1 q2 : Fin 4 → α), pts.get? (3 * k) = some q0 →
          pts.get? (3 * k + 1) = some q1 → pts.get? (3 * k + 2) = some q2 →
          normals.get? (3 * k) = some (normalize Math
            (cross (subtract ![q2 0, q2 1, q2 2] ![q0 0, q0 1, q0 2])
              (subtract ![q1 0, q1 1, q1 2] ![q0 0, q0 1, q0 2])))) ∧
    (∀ (pts : List (Fin 4 → α)) (w : (Fin 4 → α) → α),
      EstimateNormalsFromTriangles Math (pts.map (fun q => some ![q 0, q 1, q 2, w q])) =
        EstimateNormalsFromTriangles Math (pts.map some)) ∧
    EstimateNormalsFromTriangles Math
        [some ![0, 0, 0, 1], some ![1, 0, 0, 1], some ![0, 1, 0, 1]] =
      some [some ![0, 0, -1], some ![0, 0, -1], some ![0, 0, -1]] := by
  refine ⟨?_, fun pts w => estimate_ignores_w Math w pts, ?_⟩
  · intro pts hlen
    obtain ⟨normals, he, _, hk⟩ :=
      estimate_spec Math (pts.length / 3) pts (by omega)
    exact ⟨normals, he, fun k q0 q1 q2 h0 h1 h2 => (hk k q0 q1 q2 h0 h1 h2).1⟩
  · simp [EstimateNormalsFromTriangles, subtract, cross, normalize, length, dot,
      exact_sqrt_one Math hM]

/-- Witness of C4: exact real arithmetic. -/
theorem C4_triangle_normal_formula_witness :
    JSMath.Exact (⟨Real.pi, Real.sqrt, Real.sin, Real.cos, Real.tan⟩ : JSMath ℝ) ∧
    EstimateNormalsFromTriangles (⟨Real.pi, Real.sqrt, Real.sin, Real.cos, Real.tan⟩ : JSMath ℝ)
        [some ![0, 0, 0, 1], some ![1, 0, 0, 1], some ![0, 1, 0, 1]] =
      some [some ![0, 0, -1], some ![0, 0, -1], some ![0, 0, -1]] :=
  ⟨real_exact, (C4_triangle_normal_formula _ real_exact).2.2⟩

/-- C5: for every point list whose length is a multiple of 3
`EstimateNormalsFromTriangles` returns a list of the same length, and its entries at
`3k`, `3k+1`, `3k+2` are present and identical for every triangle `k`. -/
theorem C5_normals_length_and_runs (Math : JSMath α) (pts : List (Fin 4 → α))
    (hlen : pts.length % 3 = 0) :
    ∃ normals, EstimateNormalsFromTriangles Math (pts.map some) = some normals ∧
      normals.length = pts.length ∧
      ∀ k : Nat, 3 * k + 2 < pts.length →
        ∃ n, normals.get? (3 * k) = some n ∧ normals.get? (3 * k + 1) = some n ∧
          normals.get? (3 * k + 2) = some n := by
  obtain ⟨normals, he, hl, hk⟩ := estimate_spec Math (pts.length / 3) pts (by omega)
  refine ⟨normals, he, hl, ?_⟩
  intro k hk2
  have h0 : 3 * k < pts.length := by omega
  have h1 : 3 * k + 1 < pts.length := by omega
  exact ⟨_, hk k pts[3 * k] pts[3 * k + 1] pts[3 * k + 2]
    (by simp [List.getElem?_eq_getElem h0]) (by simp [List.getElem?_eq_getElem h1])
    (by simp [List.getElem?_eq_getElem hk2])⟩

/-- Witness of C5: one triangle in exact real arithmetic. -/
theorem C5_normals_length_and_runs_witness :
    [(![0, 0, 0, 1] : Fin 4 → ℝ), ![1, 0, 0, 1], ![0, 1, 0, 1]].length % 3 = 0 ∧
    ∃ normals, EstimateNormalsFromTriangles
        (⟨Real.pi, Real.sqrt, Real.sin, Real.cos, Real.tan⟩ : JSMath ℝ)
        ([(![0, 0, 0, 1] : Fin 4 → ℝ), ![1, 0, 0, 1], ![0, 1, 0, 1]].map some) = some normals ∧
      normals.length = [(![0, 0, 0, 1] : Fin 4 → ℝ), ![1, 0, 0, 1], ![0, 1, 0, 1]].length ∧
      ∀ k : Nat, 3 * k + 2 < [(![0, 0, 0, 1] : Fin 4 → ℝ), ![1, 0, 0, 1], ![0, 1, 0, 1]].length →
        ∃ n, normals.get? (3 * k) = some n ∧ normals.get? (3 * k + 1) = some n ∧
          normals.get? (3 * k + 2) = some n :=
  ⟨rfl, C5_normals_length_and_runs _ _ rfl⟩

theorem collinear_of_cross_eq_zero (q0 q1 q2 : Fin 4 → α)
    (h0 : (q2 1 - q0 1) * (q1 2 - q0 2) - (q2 2 - q0 2) * (q1 1 - q0 1) = 0)
    (h1 : (q2 2 - q0 2) * (q1 0 - q0 0) - (q2 0 - q0 0) * (q1 2 - q0 2) = 0)
    (h2 : (q2 0 - q0 0) * (q1 1 - q0 1) - (q2 1 - q0 1) * (q1 0 - q0 0) = 0) :
    Collinear q0 q1 q2 := by
  by_cases a0 : q1 0 - q0 0 = 0
  · by_cases a1 : q1 1 - q0 1 = 0
    · by_cases a2 : q1 2 - q0 2 = 0
      · refine ⟨1, 0, Or.inl one_ne_zero, fun i => ?_⟩
        fin_cases i
        · show 1 * (q1 0 - q0 0) + 0 * (q2 0 - q0 0) = 0
          linear_combination a0
        · show 1 * (q1 1 - q0 1) + 0 * (q2 1 - q0 1) = 0
          linear_combination a1
        · show 1 * (q1 2 - q0 2) + 0 * (q2 2 - q0 2) = 0
          linear_combination a2
      · refine ⟨q2 2 - q0 2, -(q1 2 - q0 2), Or.inr (neg_ne_zero.mpr a2), fun i => ?_⟩
        fin_cases i
        · show (q2 2 - q0 2) * (q1 0 - q0 0) + -(q1 2 - q0 2) * (q2 0 - q0 0) = 0
          linear_combination h1
        · show (q2 2 - q0 2) * (q1 1 - q0 1) + -(q1 2 - q0 2) * (q2 1 - q0 1) = 0
          linear_combination -h0
        · show (q2 2 - q0 2) * (q1 2 - q0 2) + -(q1 2 - q0 2) * (q2 2 - q0 2) = 0
          ring
    · refine ⟨q2 1 - q0 1, -(q1 1 - q0 1), Or.inr (neg_ne_zero.mpr a1), fun i => ?_⟩
      fin_cases i
      · show (q2 1 - q0 1) * (q1 0 - q0 0) + -(q1 1 - q0 1) * (q2 0 - q0 0) = 0
        linear_combination -h2
      · show (q2 1 - q0 1) * (q1 1 - q0 1) + -(q1 1 - q0 1) * (q2 1 - q0 1) = 0
        ring
      · show (q2 1 - q0 1) * (q1 2 - q0 2) + -(q1 1 - q0 1) * (q2 2 - q0 2) = 0
        linear_combination h0
  · refine ⟨q2 0 - q0 0, -(q1 0 - q0 0), Or.inr (neg_ne_zero.mpr a0), fun i => ?_⟩
    fin_cases i
    · show (q2 0 - q0 0) * (q1 0 - q0 0) + -(q1 0 - q0 0) * (q2 0 - q0 0) = 0
      ring
    · show (q2 0 - q0 0) * (q1 1 - q0 1) + -(q1 0 - q0 0) * (q2 1 - q0 1) = 0
      linear_combination h2
    · show (q2 0 - q0 0) * (q1 2 - q0 2) + -(q1 0 - q0 0) * (q2 2 - q0 2) = 0
      linear_combination -h1

/-- C6: for three non-collinear points `EstimateNormalsFromTriangles` returns a normal
of Euclidean length 1, exactly: the sum of the squares of its components is 1 and so is
its `length`. -/
theorem C6_normal_unit_length (Math : JSMath α) (hM : Math.Exact) (q0 q1 q2 : Fin 4 → α)
    (hnd : ¬ Collinear q0 q1 q2) :
    ∃ n : Fin 3 → α,
      EstimateNormalsFromTriangles Math [some q0, some q1, some q2] =
        some [some n, some n, some n] ∧
      n 0 * n 0 + n 1 * n 1 + n 2 * n 2 = 1 ∧ length Math n = 1 := by
  have hc : (cross (subtract ![q2 0, q2 1, q2 2] ![q0 0, q0 1, q0 2])
      (subtract ![q1 0, q1 1, q1 2] ![q0 0, q0 1, q0 2])) 0 ≠ 0 ∨
      (cross (subtract ![q2 0, q2 1, q2 2] ![q0 0, q0 1, q0 2])
      (subtract ![q1 0, q1 1, q1 2] ![q0 0, q0 1, q0 2])) 1 ≠ 0 ∨
      (cross (subtract ![q2 0, q2 1, q2 2] ![q0 0, q0 1, q0 2])
      (subtract ![q1 0, q1 1, q1 2] ![q0 0, q0 1, q0 2])) 2 ≠ 0 := by
    by_contra hcon
    push_neg at hcon
    obtain ⟨h0, h1, h2⟩ := hcon
    simp only [cross, subtract, Matrix.cons_val_zero, Matrix.cons_val_one, Matrix.head_cons,
      Matrix.cons_val_two, Matrix.tail_cons] at h0 h1 h2
    exact hnd (collinear_of_cross_eq_zero q0 q1 q2 h0 h1 h2)
  obtain ⟨i, hi⟩ : ∃ i : Fin 3,
      (cross (subtract ![q2 0, q2 1, q2 2] ![q0 0, q0 1, q0 2])
        (subtract ![q1 0, q1 1, q1 2] ![q0 0, q0 1, q0 2])) i ≠ 0 := by
    rcases hc with h | h | h
    · exact ⟨0, h⟩
    · exact ⟨1, h⟩
    · exact ⟨2, h⟩
  obtain ⟨hL0, hL, hn⟩ := normalize_of_pos Math hM _ (dot_pos_of_ne_zero _ i hi)
  have hd := dot_scale_self _ _ hL0 hL
  refine ⟨_, ?_, hd, ?_⟩
  · simp [EstimateNormalsFromTriangles, hn]
  · show Math.sqrt _ = 1
    rw [hd]
    exact exact_sqrt_one Math hM

/-- Witness of C6: the triangle `(0,0,0)`, `(1,0,0)`, `(0,1,0)` in exact real
arithmetic. -/
theorem C6_normal_unit_length_witness :
    JSMath.Exact (⟨Real.pi, Real.sqrt, Real.sin, Real.cos, Real.tan⟩ : JSMath ℝ) ∧
    ¬ Collinear (![0, 0, 0, 1] : Fin 4 → ℝ) ![1, 0, 0, 1] ![0, 1, 0, 1] ∧
    ∃ n : Fin 3 → ℝ,
      EstimateNormalsFromTriangles
          (⟨Real.pi, Real.sqrt, Real.sin, Real.cos, Real.tan⟩ : JSMath ℝ)
          [some ![0, 0, 0, 1], some ![1, 0, 0, 1], some ![0, 1, 0, 1]] =
        some [some n, some n, some n] ∧
      n 0 * n 0 + n 1 * n 1 + n 2 * n 2 = 1 ∧
      length (⟨Real.pi, Real.sqrt, Real.sin, Real.cos, Real.tan⟩ : JSMath ℝ) n = 1 :=
  have hnc : ¬ Collinear (![0, 0, 0, 1] : Fin 4 → ℝ) ![1, 0, 0, 1] ![0, 1, 0, 1] := by
    rintro ⟨s, t, hst, h⟩
    have hs := h 0
    have ht := h 1
    simp at hs ht
    rcases hst with h | h
    · exact h hs
    · exact h ht
  ⟨real_exact, hnc, C6_normal_unit_length _ real_exact _ _ _ hnc⟩

theorem exact_sqrt_zero (Math : JSMath α) (hM : Math.Exact) : Math.sqrt 0 = 0 := by
  have h := hM.sqrt_mul_self 0 le_rfl
  exact mul_self_eq_zero.mp h

theorem normalize_of_zero (Math : JSMath α) (hM : Math.Exact) (c : Fin 3 → α)
    (hc : ∀ i : Fin 3, c i = 0) : normalize Math c = none := by
  have hl : length Math c = 0 := by
    show Math.sqrt (dot c c) = 0
    have : dot c c = 0 := by simp [dot, hc]
    rw [this]
    exact exact_sqrt_zero Math hM
  simp [normalize, hl]

/-- C17, as stated, fails: for the collinear points `(0,0,0)`, `(1,0,0)`, `(2,0,0)`, in
exact real arithmetic, `EstimateNormalsFromTriangles` signals nothing and returns three
times the result of normalising the zero vector. -/
theorem C17_counterexample :
    (∀ i : Fin 3, cross (subtract ![(2 : ℝ), 0, 0] ![0, 0, 0])
      (subtract ![1, 0, 0] ![0, 0, 0]) i = 0) ∧
    normalize (⟨Real.pi, Real.sqrt, Real.sin, Real.cos, Real.tan⟩ : JSMath ℝ) ![0, 0, 0] =
      none ∧
    EstimateNormalsFromTriangles (⟨Real.pi, Real.sqrt, Real.sin, Real.cos, Real.tan⟩ : JSMath ℝ)
        [some ![0, 0, 0, 1], some ![1, 0, 0, 1], some ![2, 0, 0, 1]] =
      some [none, none, none] := by
  refine ⟨?_, ?_, ?_⟩
  · intro i
    fin_cases i <;> simp [cross, subtract]
  · simp [normalize, length, dot]
  · simp [EstimateNormalsFromTriangles, cross, subtract, normalize, length, dot]

/-- C17, amended: `EstimateNormalsFromTriangles` has no policy for degenerate triangles.
For a point list of whole triangles it returns a list, and at the three places of
every triangle whose cross product `(p2 - p0) × (p1 - p0)` is the zero vector it holds
the result of normalising the zero vector (the `NaN` vector, `none`). -/
theorem C17_degenerate_triangle_is_NaN (Math : JSMath α) (hM : Math.Exact)
    (pts : List (Fin 4 → α)) (hlen : pts.length % 3 = 0) (k : Nat) (q0 q1 q2 : Fin 4 → α)
    (h0 : pts.get? (3 * k) = some q0) (h1 : pts.get? (3 * k + 1) = some q1)
    (h2 : pts.get? (3 * k + 2) = some q2)
    (hzero : ∀ i : Fin 3, cross (subtract ![q2 0, q2 1, q2 2] ![q0 0, q0 1, q0 2])
      (subtract ![q1 0, q1 1, q1 2] ![q0 0, q0 1, q0 2]) i = 0) :
    ∃ normals, EstimateNormalsFromTriangles Math (pts.map some) = some normals ∧
      normals.get? (3 * k) = some none ∧ normals.get? (3 * k + 1) = some none ∧
      normals.get? (3 * k + 2) = some none := by
  obtain ⟨normals, he, _, hk⟩ := estimate_spec Math (pts.length / 3) pts (by omega)
  have hn : triangleNormal Math q0 q1 q2 = none := normalize_of_zero Math hM _ hzero
  have := hk k q0 q1 q2 h0 h1 h2
  rw [hn] at this
  exact ⟨normals, he, this⟩

/-- Witness of C17, amended: three coincident points after a proper triangle. -/
theorem C17_degenerate_triangle_is_NaN_witness :
    JSMath.Exact (⟨Real.pi, Real.sqrt, Real.sin, Real.cos, Real.tan⟩ : JSMath ℝ) ∧
    ∃ normals, EstimateNormalsFromTriangles
        (⟨Real.pi, Real.sqrt, Real.sin, Real.cos, Real.tan⟩ : JSMath ℝ)
        ([(![0, 0, 0, 1] : Fin 4 → ℝ), ![1, 0, 0, 1], ![0, 1, 0, 1],
          ![5, 5, 5, 1], ![5, 5, 5, 1], ![5, 5, 5, 1]].map some) = some normals ∧
      normals.get? (3 * 1) = some none ∧ normals.get? (3 * 1 + 1) = some none ∧
      normals.get? (3 * 1 + 2) = some none :=
  ⟨real_exact, C17_degenerate_triangle_is_NaN _ real_exact
    [(![0, 0, 0, 1] : Fin 4 → ℝ), ![1, 0, 0, 1], ![0, 1, 0, 1],
      ![5, 5, 5, 1], ![5, 5, 5, 1], ![5, 5, 5, 1]] rfl 1 ![5, 5, 5, 1] ![5, 5, 5, 1]
    ![5, 5, 5, 1] rfl rfl rfl
    (by intro i; fin_cases i <;> simp [cross, subtract])⟩

theorem triangleNormal_swap (Math : JSMath α) (q0 q1 q2 : Fin 4 → α) :
    triangleNormal Math q0 q2 q1 =
      (triangleNormal Math q0 q1 q2).map (fun n => fun i => -n i) := by
  have hc : ∀ i : Fin 3,
      cross (subtract ![q1 0, q1 1, q1 2] ![q0 0, q0 1, q0 2])
        (subtract ![q2 0, q2 1, q2 2] ![q0 0, q0 1, q0 2]) i =
      -cross (subtract ![q2 0, q2 1, q2 2] ![q0 0, q0 1, q0 2])
        (subtract ![q1 0, q1 1, q1 2] ![q0 0, q0 1, q0 2]) i := by
    intro i
    fin_cases i <;> simp [cross, subtract] <;> ring
  have hd : dot (cross (subtract ![q1 0, q1 1, q1 2] ![q0 0, q0 1, q0 2])
        (subtract ![q2 0, q2 1, q2 2] ![q0 0, q0 1, q0 2]))
        (cross (subtract ![q1 0, q1 1, q1 2] ![q0 0, q0 1, q0 2])
        (subtract ![q2 0, q2 1, q2 2] ![q0 0, q0 1, q0 2])) =
      dot (cross (subtract ![q2 0, q2 1, q2 2] ![q0 0, q0 1, q0 2])
        (subtract ![q1 0, q1 1, q1 2] ![q0 0, q0 1, q0 2]))
        (cross (subtract ![q2 0, q2 1, q2 2] ![q0 0, q0 1, q0 2])
        (subtract ![q1 0, q1 1, q1 2] ![q0 0, q0 1, q0 2])) := by
    simp only [dot, hc]
    ring
  have hl : length Math (cross (subtract ![q1 0, q1 1, q1 2] ![q0 0, q0 1, q0 2])
        (subtract ![q2 0, q2 1, q2 2] ![q0 0, q0 1, q0 2])) =
      length Math (cross (subtract ![q2 0, q2 1, q2 2] ![q0 0, q0 1, q0 2])
        (subtract ![q1 0, q1 1, q1 2] ![q0 0, q0 1, q0 2])) := by
    unfold length
    rw [hd]
  unfold triangleNormal normalize
  simp only [hl, hc]
  split_ifs
  · rfl
  · simp only [Option.map_some']
    congr 1
    funext i
    fin_cases i <;> simp [neg_div]

theorem triangleNormal_of_not_collinear (Math : JSMath α) (hM : Math.Exact)
    (q0 q1 q2 : Fin 4 → α) (hnd : ¬ Collinear q0 q1 q2) :
    ∃ n, triangleNormal Math q0 q1 q2 = some n := by
  have hc : ∃ i : Fin 3,
      (cross (subtract ![q2 0, q2 1, q2 2] ![q0 0, q0 1, q0 2])
        (subtract ![q1 0, q1 1, q1 2] ![q0 0, q0 1, q0 2])) i ≠ 0 := by
    by_contra hcon
    push_neg at hcon
    have h0 := hcon 0
    have h1 := hcon 1
    have h2 := hcon 2
    simp only [cross, subtract, Matrix.cons_val_zero, Matrix.cons_val_one, Matrix.head_cons,
      Matrix.cons_val_two, Matrix.tail_cons] at h0 h1 h2
    exact hnd (collinear_of_cross_eq_zero q0 q1 q2 h0 h1 h2)
  obtain ⟨i, hi⟩ := hc
  obtain ⟨_, _, hn⟩ := normalize_of_pos Math hM _ (dot_pos_of_ne_zero _ i hi)
  exact ⟨_, hn⟩

/-- C21: for three non-collinear points, in exact arithmetic, the normal that
`EstimateNormalsFromTriangles` returns for `(p0, p2, p1)` is the negation, component by
component, of the normal it returns for `(p0, p1, p2)`. -/
theorem C21_winding_flips_normal (Math : JSMath α) (hM : Math.Exact) (q0 q1 q2 : Fin 4 → α)
    (hnd : ¬ Collinear q0 q1 q2) :
    ∃ n : Fin 3 → α,
      EstimateNormalsFromTriangles Math [some q0, some q1, some q2] =
        some [some n, some n, some n] ∧
      EstimateNormalsFromTriangles Math [some q0, some q2, some q1] =
        some [some (fun i => -n i), some (fun i => -n i), some (fun i => -n i)] := by
  obtain ⟨n, hn⟩ := triangleNormal_of_not_collinear Math hM q0 q1 q2 hnd
  have hs : triangleNormal Math q0 q2 q1 = some (fun i => -n i) := by
    rw [triangleNormal_swap, hn]
    rfl
  refine ⟨n, ?_, ?_⟩
  · rw [estimate_cons3, hn]
    rfl
  · rw [estimate_cons3, hs]
    rfl

/-- Witness of C21: the triangle `(0,0,0)`, `(1,0,0)`, `(0,1,0)` in exact real
arithmetic. -/
theorem C21_winding_flips_normal_witness :
    JSMath.Exact (⟨Real.pi, Real.sqrt, Real.sin, Real.cos, Real.tan⟩ : JSMath ℝ) ∧
    ¬ Collinear (![0, 0, 0, 1] : Fin 4 → ℝ) ![1, 0, 0, 1] ![0, 1, 0, 1] ∧
    ∃ n : Fin 3 → ℝ,
      EstimateNormalsFromTriangles
          (⟨Real.pi, Real.sqrt, Real.sin, Real.cos, Real.tan⟩ : JSMath ℝ)
          [some ![0, 0, 0, 1], some ![1, 0, 0, 1], some ![0, 1, 0, 1]] =
        some [some n, some n, some n] ∧
      EstimateNormalsFromTriangles
          (⟨Real.pi, Real.sqrt, Real.sin, Real.cos, Real.tan⟩ : JSMath ℝ)
          [some ![0, 0, 0, 1], some ![0, 1, 0, 1], some ![1, 0, 0, 1]] =
        some [some (fun i => -n i), some (fun i => -n i), some (fun i => -n i)] :=
  have hnc : ¬ Collinear (![0, 0, 0, 1] : Fin 4 → ℝ) ![1, 0, 0, 1] ![0, 1, 0, 1] := by
    rintro ⟨s, t, hst, h⟩
    have hs := h 0
    have ht := h 1
    simp at hs ht
    rcases hst with h | h
    · exact h hs
    · exact h ht
  ⟨real_exact, hnc, C21_winding_flips_normal _ real_exact _ _ _ hnc⟩

end Normals


section Camera

variable {α : Type} [LinearOrderedField α]

theorem rotatedAt_eq (Math : JSMath α) (rx ry rz : α) :
    rotatedAt Math rx ry rz =
      ![-2 * Math.sin (Math.PI * ry),
        2 * Math.sin (Math.PI * rx) * Math.cos (Math.PI * ry),
        -2 * Math.cos (Math.PI * rx) * Math.cos (Math.PI * ry)] := by
  funext i
  fin_cases i <;>
    simp [rotatedAt, multVec, Matrix.mulVec, Matrix.dotProduct, Fin.sum_univ_three,
      Matrix.vecHead, Matrix.vecTail] <;> ring

theorem rotatedUp_eq (Math : JSMath α) (rx ry rz : α) :
    rotatedUp Math rx ry rz =
      ![-(Math.cos (Math.PI * ry) * Math.sin (Math.PI * rz)),
        Math.cos (Math.PI * rx) * Math.cos (Math.PI * rz) -
          Math.sin (Math.PI * rx) * Math.sin (Math.PI * ry) * Math.sin (Math.PI * rz),
        Math.sin (Math.PI * rx) * Math.cos (Math.PI * rz) +
          Math.cos (Math.PI * rx) * Math.sin (Math.PI * ry) * Math.sin (Math.PI * rz)] := by
  funext i
  fin_cases i <;>
    simp [rotatedUp, multVec, Matrix.mulVec, Matrix.dotProduct, Fin.sum_univ_three,
      Matrix.vecHead, Matrix.vecTail] <;> ring


theorem inverse_of_left_inverse (X M : Matrix (Fin 4) (Fin 4) α) (h : M * X = 1) :
    inverse X = some M := by
  have hdet : X.det ≠ 0 := by
    intro h0
    have := congrArg Matrix.det h
    rw [Matrix.det_mul, h0, mul_zero, Matrix.det_one] at this
    exact zero_ne_one this
  have hinv : X⁻¹ = M := Matrix.inv_eq_left_inv h
  rw [Matrix.inv_def, Ring.inverse_eq_inv'] at hinv
  simp [inverse, hdet, hinv]

theorem view_left_inverse (u v n : Fin 3 → α)
    (huu : dot u u = 1) (hvv : dot v v = 1) (hnn : dot n n = 1)
    (huv : dot u v = 0) (hun : dot u n = 0) (hvn : dot v n = 0) :
    !![u 0, u 1, u 2, 0; v 0, v 1, v 2, 0; n 0, n 1, n 2, -1; 0, 0, 0, 1] *
      mult !![u 0, v 0, n 0, 0; u 1, v 1, n 1, 0; u 2, v 2, n 2, 0; 0, 0, 0, 1]
        !![1, 0, 0, -0; 0, 1, 0, -0; 0, 0, 1, - -1; 0, 0, 0, 1] = 1 := by
  unfold dot at *
  ext i j
  fin_cases i <;> fin_cases j <;>
    simp [mult, Matrix.mul_apply, Fin.sum_univ_four]
  · linear_combination huu
  · linear_combination huv
  · linear_combination hun
  · linear_combination hun
  · linear_combination huv
  · linear_combination hvv
  · linear_combination hvn
  · linear_combination hvn
  · linear_combination hun
  · linear_combination hvn
  · linear_combination hnn
  · linear_combination hnn

theorem dot_rotatedUp (Math : JSMath α) (hM : Math.Exact) (rx ry rz : α) :
    dot (rotatedUp Math rx ry rz) (rotatedUp Math rx ry rz) = 1 := by
  have hx := hM.sin_sq_add_cos_sq (Math.PI * rx)
  have hy := hM.sin_sq_add_cos_sq (Math.PI * ry)
  have hz := hM.sin_sq_add_cos_sq (Math.PI * rz)
  rw [rotatedUp_eq]
  simp only [dot, Matrix.cons_val_zero, Matrix.cons_val_one, Matrix.head_cons,
    Matrix.cons_val_two, Matrix.tail_cons]
  linear_combination
    (Math.cos (Math.PI * rz) * Math.cos (Math.PI * rz) +
      Math.sin (Math.PI * ry) * Math.sin (Math.PI * ry) *
        (Math.sin (Math.PI * rz) * Math.sin (Math.PI * rz))) * hx +
    Math.sin (Math.PI * rz) * Math.sin (Math.PI * rz) * hy + hz

theorem dot_eye_sub_at (Math : JSMath α) (hM : Math.Exact) (rx ry rz : α) :
    1 ≤ dot (subtract ![0, 0, -1] (rotatedAt Math rx ry rz))
      (subtract ![0, 0, -1] (rotatedAt Math rx ry rz)) := by
  have hx := hM.sin_sq_add_cos_sq (Math.PI * rx)
  have hy := hM.sin_sq_add_cos_sq (Math.PI * ry)
  rw [rotatedAt_eq]
  simp only [dot, subtract, Matrix.cons_val_zero, Matrix.cons_val_one, Matrix.head_cons,
    Matrix.cons_val_two, Matrix.tail_cons]
  have key : (0 - -2 * Math.sin (Math.PI * ry)) * (0 - -2 * Math.sin (Math.PI * ry)) +
      (0 - 2 * Math.sin (Math.PI * rx) * Math.cos (Math.PI * ry)) *
        (0 - 2 * Math.sin (Math.PI * rx) * Math.cos (Math.PI * ry)) +
      (-1 - -2 * Math.cos (Math.PI * rx) * Math.cos (Math.PI * ry)) *
        (-1 - -2 * Math.cos (Math.PI * rx) * Math.cos (Math.PI * ry)) =
      5 - 4 * (Math.cos (Math.PI * rx) * Math.cos (Math.PI * ry)) := by
    linear_combination
      4 * (Math.cos (Math.PI * ry) * Math.cos (Math.PI * ry)) * hx + 4 * hy
  rw [key]
  nlinarith [mul_self_nonneg (Math.cos (Math.PI * rx) - Math.cos (Math.PI * ry)),
    mul_self_nonneg (Math.sin (Math.PI * rx)), mul_self_nonneg (Math.sin (Math.PI * ry))]


theorem camera_spec (Math : JSMath α) (hM : Math.Exact) (rx ry rz : α)
    (hnd : ¬ Degenerate Math rx ry rz) :
    ∃ u v n : Fin 3 → α,
      dot u u = 1 ∧ dot v v = 1 ∧ dot n n = 1 ∧ dot u v = 0 ∧ dot u n = 0 ∧ dot v n = 0 ∧
      GetCameraOrientationMatrix Math rx ry rz =
        some !![u 0, u 1, u 2, 0; v 0, v 1, v 2, 0; n 0, n 1, n 2, -1; 0, 0, 0, 1] := by
  -- the vector `n`
  obtain ⟨e, he⟩ : ∃ e, e = subtract ![0, 0, -1] (rotatedAt Math rx ry rz) := ⟨_, rfl⟩
  have hepos : 0 < dot e e := by
    rw [he]
    exact lt_of_lt_of_le zero_lt_one (dot_eye_sub_at Math hM rx ry rz)
  obtain ⟨hLe0, hLe, hne⟩ := normalize_of_pos Math hM e hepos
  obtain ⟨n, hn⟩ : ∃ n : Fin 3 → α,
    n = ![e 0 / length Math e, e 1 / length Math e, e 2 / length Math e] := ⟨_, rfl⟩
  have hnn : dot n n = 1 := by rw [hn]; exact dot_scale_self e _ hLe0 hLe
  -- the vector `up`
  obtain ⟨up1, hup1⟩ : ∃ up1, up1 = rotatedUp Math rx ry rz := ⟨_, rfl⟩
  have hupos : 0 < dot up1 up1 := by
    rw [hup1, dot_rotatedUp Math hM]
    exact one_pos
  obtain ⟨hLu0, hLu, hnu⟩ := normalize_of_pos Math hM up1 hupos
  obtain ⟨up, hup⟩ : ∃ up : Fin 3 → α,
    up = ![up1 0 / length Math up1, up1 1 / length Math up1, up1 2 / length Math up1] :=
    ⟨_, rfl⟩
  -- the vector `u`
  obtain ⟨i, hi⟩ : ∃ i, cross up1 e i ≠ 0 := by
    by_contra hcon
    push_neg at hcon
    exact hnd (by intro i; rw [← hup1, ← he]; exact hcon i)
  have hci : cross up n i = cross up1 e i / (length Math up1 * length Math e) := by
    rw [hup, hn]
    fin_cases i <;> simp [cross] <;> field_simp
  have hcpos : 0 < dot (cross up n) (cross up n) :=
    dot_pos_of_ne_zero _ i (by rw [hci]; exact div_ne_zero hi (mul_ne_zero hLu0 hLe0))
  obtain ⟨hLc0, hLc, hnc⟩ := normalize_of_pos Math hM (cross up n) hcpos
  obtain ⟨u, hu⟩ : ∃ u : Fin 3 → α,
    u = ![cross up n 0 / length Math (cross up n), cross up n 1 / length Math (cross up n),
      cross up n 2 / length Math (cross up n)] := ⟨_, rfl⟩
  have huu : dot u u = 1 := by rw [hu]; exact dot_scale_self _ _ hLc0 hLc
  have hun : dot u n = 0 := by rw [hu, dot_scale, dot_cross_right, zero_div]
  -- the vector `v`
  have hww : dot (cross n u) (cross n u) = 1 := by
    rw [dot_cross_cross, hnn, huu, dot_comm n u, hun]
    ring
  obtain ⟨hLw0, hLw, hnw⟩ := normalize_of_pos Math hM (cross n u) (by rw [hww]; exact one_pos)
  obtain ⟨v, hv⟩ : ∃ v : Fin 3 → α,
    v = ![cross n u 0 / length Math (cross n u), cross n u 1 / length Math (cross n u),
      cross n u 2 / length Math (cross n u)] := ⟨_, rfl⟩
  have hvv : dot v v = 1 := by rw [hv]; exact dot_scale_self _ _ hLw0 hLw
  have hvn : dot v n = 0 := by rw [hv, dot_scale, dot_cross_left, zero_div]
  have huv : dot u v = 0 := by rw [dot_comm, hv, dot_scale, dot_cross_right, zero_div]
  refine ⟨u, v, n, huu, hvv, hnn, huv, hun, hvn, ?_⟩
  have hdef : GetCameraOrientationMatrix Math rx ry rz =
      (normalize Math (subtract ![0, 0, -1] (rotatedAt Math rx ry rz))).bind fun n =>
      (normalize Math (rotatedUp Math rx ry rz)).bind fun up =>
      (normalize Math (cross up n)).bind fun u =>
      (normalize Math (cross n u)).bind fun v =>
      inverse (mult !![u 0, v 0, n 0, 0; u 1, v 1, n 1, 0; u 2, v 2, n 2, 0; 0, 0, 0, 1]
        !![1, 0, 0, -0; 0, 1, 0, -0; 0, 0, 1, - -1; 0, 0, 0, 1]) := rfl
  rw [hdef, ← he, hne, Option.some_bind, ← hn, ← hup1, hnu, Option.some_bind, ← hup, hnc,
    Option.some_bind, ← hu, hnw, Option.some_bind, ← hv]
  exact inverse_of_left_inverse _ _ (view_left_inverse u v n huu hvv hnn huv hun hvn)


/-- C9: for orbit angles outside the degenerate set (the rotated `up` parallel to
`eye - at`), in exact arithmetic, `GetCameraOrientationMatrix` returns a matrix whose
upper-left 3×3 block `R` is orthonormal, `R * Rᵀ = 1` and `Rᵀ * R = 1`, and whose last row
is `(0,0,0,1)`. -/
theorem C9_view_matrix_rigid (Math : JSMath α) (hM : Math.Exact) (rx ry rz : α)
    (hnd : ¬ Degenerate Math rx ry rz) :
    ∃ M, GetCameraOrientationMatrix Math rx ry rz = some M ∧
      upperLeft M * (upperLeft M).transpose = 1 ∧
      (upperLeft M).transpose * upperLeft M = 1 ∧
      M 3 = ![0, 0, 0, 1] := by
  obtain ⟨u, v, n, huu, hvv, hnn, huv, hun, hvn, hM'⟩ := camera_spec Math hM rx ry rz hnd
  have hR : upperLeft !![u 0, u 1, u 2, 0; v 0, v 1, v 2, 0; n 0, n 1, n 2, -1; 0, 0, 0, 1] *
      (upperLeft
        !![u 0, u 1, u 2, 0; v 0, v 1, v 2, 0; n 0, n 1, n 2, -1; 0, 0, 0, 1]).transpose =
      1 := by
    unfold dot at *
    ext i j
    fin_cases i <;> fin_cases j <;>
      simp [upperLeft, Matrix.mul_apply, Fin.sum_univ_three, Matrix.transpose_apply,
        Matrix.vecHead, Matrix.vecTail, -Matrix.cons_transpose]
    · linear_combination huu
    · linear_combination huv
    · linear_combination hun
    · linear_combination huv
    · linear_combination hvv
    · linear_combination hvn
    · linear_combination hun
    · linear_combination hvn
    · linear_combination hnn
  refine ⟨_, hM', hR, Matrix.mul_eq_one_comm.mp hR, ?_⟩
  funext j
  fin_cases j <;> rfl

/-- Witness of C9: the angles `(0, 0, 0)` in exact real arithmetic. -/
theorem C9_view_matrix_rigid_witness :
    JSMath.Exact (⟨Real.pi, Real.sqrt, Real.sin, Real.cos, Real.tan⟩ : JSMath ℝ) ∧
    ¬ Degenerate (⟨Real.pi, Real.sqrt, Real.sin, Real.cos, Real.tan⟩ : JSMath ℝ) 0 0 0 ∧
    ∃ M, GetCameraOrientationMatrix
        (⟨Real.pi, Real.sqrt, Real.sin, Real.cos, Real.tan⟩ : JSMath ℝ) 0 0 0 = some M ∧
      upperLeft M * (upperLeft M).transpose = 1 ∧
      (upperLeft M).transpose * upperLeft M = 1 ∧
      M 3 = ![0, 0, 0, 1] :=
  have hnd : ¬ Degenerate (⟨Real.pi, Real.sqrt, Real.sin, Real.cos, Real.tan⟩ : JSMath ℝ)
      0 0 0 := by
    intro h
    have h0 := h 0
    simp [rotatedUp_eq, rotatedAt_eq, cross, subtract] at h0
    norm_num at h0
  ⟨real_exact, hnd, C9_view_matrix_rigid _ real_exact 0 0 0 hnd⟩

theorem camera_eq_viewBasis (Math : JSMath α) (rx ry rz : α) :
    GetCameraOrientationMatrix Math rx ry rz =
      (viewBasis Math rx ry rz).bind fun b =>
        inverse (mult (basisChange b.1 b.2.1 b.2.2) eyeTranslation) := by
  have hdef : GetCameraOrientationMatrix Math rx ry rz =
      (normalize Math (subtract ![0, 0, -1] (rotatedAt Math rx ry rz))).bind fun n =>
      (normalize Math (rotatedUp Math rx ry rz)).bind fun up =>
      (normalize Math (cross up n)).bind fun u =>
      (normalize Math (cross n u)).bind fun v =>
      inverse (mult (basisChange u v n) eyeTranslation) := rfl
  rw [hdef]
  simp only [viewBasis, Option.bind_assoc, Option.some_bind]

theorem normalize_unit (Math : JSMath α) (hM : Math.Exact) (c : Fin 3 → α)
    (h : dot c c = 1) : normalize Math c = some c := by
  obtain ⟨_, _, hn⟩ := normalize_of_pos Math hM c (by rw [h]; exact one_pos)
  have hl : length Math c = 1 := by
    show Math.sqrt (dot c c) = 1
    rw [h]
    exact exact_sqrt_one Math hM
  rw [hn, hl]
  congr 1
  funext i
  fin_cases i <;> simp

theorem viewBasis_of_unit (Math : JSMath α) (hM : Math.Exact) (rx ry rz : α)
    (e up1 : Fin 3 → α) (he : subtract ![0, 0, -1] (rotatedAt Math rx ry rz) = e)
    (hup : rotatedUp Math rx ry rz = up1) (hee : dot e e = 1) (huu : dot up1 up1 = 1)
    (hperp : dot up1 e = 0) :
    viewBasis Math rx ry rz = some (cross up1 e, cross e (cross up1 e), e) := by
  have hc : dot (cross up1 e) (cross up1 e) = 1 := by
    rw [dot_cross_cross, hee, huu, hperp]
    ring
  have hw : dot (cross e (cross up1 e)) (cross e (cross up1 e)) = 1 := by
    rw [dot_cross_cross, hee, hc, dot_comm, dot_cross_right]
    ring
  simp only [viewBasis, he, hup, normalize_unit Math hM e hee, normalize_unit Math hM up1 huu,
    normalize_unit Math hM _ hc, normalize_unit Math hM _ hw, Option.some_bind]

theorem rotatedAt_real_zero (rz : ℝ) :
    subtract ![0, 0, -1]
      (rotatedAt (⟨Real.pi, Real.sqrt, Real.sin, Real.cos, Real.tan⟩ : JSMath ℝ) 0 0 rz) =
      ![0, 0, 1] := by
  rw [rotatedAt_eq]
  funext i
  fin_cases i <;> simp [subtract]
  norm_num

theorem viewBasis_real_zero :
    viewBasis (⟨Real.pi, Real.sqrt, Real.sin, Real.cos, Real.tan⟩ : JSMath ℝ) 0 0 0 =
      some (![1, 0, 0], ![0, 1, 0], ![0, 0, 1]) := by
  have hup : rotatedUp (⟨Real.pi, Real.sqrt, Real.sin, Real.cos, Real.tan⟩ : JSMath ℝ) 0 0 0 =
      ![0, 1, 0] := by
    rw [rotatedUp_eq]
    funext i
    fin_cases i <;> simp
  rw [viewBasis_of_unit _ real_exact 0 0 0 ![0, 0, 1] ![0, 1, 0] (rotatedAt_real_zero 0) hup
    (by simp [dot]) (by simp [dot]) (by simp [dot])]
  congr 2
  · funext i
    fin_cases i <;> simp [cross]
  · congr 1
    funext i
    fin_cases i <;> simp [cross]

theorem viewBasis_real_quarter_turn :
    viewBasis (⟨Real.pi, Real.sqrt, Real.sin, Real.cos, Real.tan⟩ : JSMath ℝ) 0 0 (1 / 2) =
      some (![0, 1, 0], ![-1, 0, 0], ![0, 0, 1]) := by
  have hsin : Real.sin (Real.pi * 2⁻¹) = 1 := by
    rw [show Real.pi * 2⁻¹ = Real.pi / 2 by ring, Real.sin_pi_div_two]
  have hcos : Real.cos (Real.pi * 2⁻¹) = 0 := by
    rw [show Real.pi * 2⁻¹ = Real.pi / 2 by ring, Real.cos_pi_div_two]
  have hup : rotatedUp (⟨Real.pi, Real.sqrt, Real.sin, Real.cos, Real.tan⟩ : JSMath ℝ)
      0 0 (1 / 2) = ![-1, 0, 0] := by
    rw [rotatedUp_eq]
    funext i
    fin_cases i <;> simp [hsin, hcos]
  rw [viewBasis_of_unit _ real_exact 0 0 (1 / 2) ![0, 0, 1] ![-1, 0, 0]
    (rotatedAt_real_zero (1 / 2)) hup (by simp [dot]) (by simp [dot]) (by simp [dot])]
  congr 2
  · funext i
    fin_cases i <;> simp [cross]
  · congr 1
    funext i
    fin_cases i <;> simp [cross]

/-- C12: with `rotX = rotY = rotZ = 0`, in exact real arithmetic,
`GetCameraOrientationMatrix` returns the matrix with rows `(1,0,0,0)`, `(0,1,0,0)`,
`(0,0,1,-1)`, `(0,0,0,1)`, which is the inverse of the translation `T` that moves
`eye = (0,0,-1)` to the origin. -/
theorem C12_camera_identity_case :
    GetCameraOrientationMatrix (⟨Real.pi, Real.sqrt, Real.sin, Real.cos, Real.tan⟩ : JSMath ℝ)
        0 0 0 =
      some !![1, 0, 0, 0; 0, 1, 0, 0; 0, 0, 1, -1; 0, 0, 0, 1] ∧
    inverse (eyeTranslation : Matrix (Fin 4) (Fin 4) ℝ) =
      some !![1, 0, 0, 0; 0, 1, 0, 0; 0, 0, 1, -1; 0, 0, 0, 1] ∧
    (eyeTranslation : Matrix (Fin 4) (Fin 4) ℝ).mulVec ![0, 0, -1, 1] = ![0, 0, 0, 1] := by
  refine ⟨?_, ?_, ?_⟩
  · rw [camera_eq_viewBasis, viewBasis_real_zero, Option.some_bind]
    apply inverse_of_left_inverse
    ext i j
    fin_cases i <;> fin_cases j <;>
      simp [mult, basisChange, eyeTranslation, Matrix.mul_apply, Fin.sum_univ_four,
        Matrix.vecHead, Matrix.vecTail]
  · apply inverse_of_left_inverse
    ext i j
    fin_cases i <;> fin_cases j <;>
      simp [eyeTranslation, Matrix.mul_apply, Fin.sum_univ_four, Matrix.vecHead,
        Matrix.vecTail]
  · funext i
    fin_cases i <;>
      simp [eyeTranslation, Matrix.mulVec, Matrix.dotProduct, Fin.sum_univ_four]

theorem dot_basis_expansion (u v n p : Fin 3 → α)
    (huu : dot u u = 1) (hvv : dot v v = 1) (hnn : dot n n = 1)
    (huv : dot u v = 0) (hun : dot u n = 0) (hvn : dot v n = 0) :
    dot p p = dot u p * dot u p + dot v p * dot v p + dot n p * dot n p := by
  have hR : !![u 0, u 1, u 2; v 0, v 1, v 2; n 0, n 1, n 2] *
      (!![u 0, u 1, u 2; v 0, v 1, v 2; n 0, n 1, n 2]).transpose = 1 := by
    unfold dot at *
    ext i j
    fin_cases i <;> fin_cases j <;>
      simp [Matrix.mul_apply, Fin.sum_univ_three, Matrix.transpose_apply,
        Matrix.vecHead, Matrix.vecTail, -Matrix.cons_transpose]
    · linear_combination huu
    · linear_combination huv
    · linear_combination hun
    · linear_combination huv
    · linear_combination hvv
    · linear_combination hvn
    · linear_combination hun
    · linear_combination hvn
    · linear_combination hnn
  have hC := Matrix.mul_eq_one_comm.mp hR
  have c00 := congrFun (congrFun hC 0) 0
  have c01 := congrFun (congrFun hC 0) 1
  have c02 := congrFun (congrFun hC 0) 2
  have c11 := congrFun (congrFun hC 1) 1
  have c12 := congrFun (congrFun hC 1) 2
  have c22 := congrFun (congrFun hC 2) 2
  simp [Matrix.mul_apply, Fin.sum_univ_three, Matrix.transpose_apply,
    Matrix.vecHead, Matrix.vecTail, -Matrix.cons_transpose] at c00 c01 c02 c11 c12 c22
  unfold dot
  linear_combination (-(p 0 * p 0)) * c00 + (-(2 * p 0 * p 1)) * c01 + (-(2 * p 0 * p 2)) * c02 +
    (-(p 1 * p 1)) * c11 + (-(2 * p 1 * p 2)) * c12 + (-(p 2 * p 2)) * c22

/-- C13: for non-degenerate orbit angles, in exact arithmetic, the matrix `M` returned by
`GetCameraOrientationMatrix` sends the world origin `(0,0,0,1)` to `(0,0,-1,1)`, some
world point is sent to the camera-space origin `(0,0,0,1)`, and every such point lies at
distance exactly `1` from the world origin. -/
theorem C13_camera_on_unit_sphere (Math : JSMath α) (hM : Math.Exact) (rx ry rz : α)
    (hnd : ¬ Degenerate Math rx ry rz) :
    ∃ M, GetCameraOrientationMatrix Math rx ry rz = some M ∧
      M.mulVec ![0, 0, 0, 1] = ![0, 0, -1, 1] ∧
      (∃ p : Fin 3 → α, M.mulVec ![p 0, p 1, p 2, 1] = ![0, 0, 0, 1]) ∧
      ∀ p : Fin 3 → α, M.mulVec ![p 0, p 1, p 2, 1] = ![0, 0, 0, 1] →
        dot p p = 1 ∧ length Math p = 1 := by
  obtain ⟨u, v, n, huu, hvv, hnn, huv, hun, hvn, hM'⟩ := camera_spec Math hM rx ry rz hnd
  refine ⟨_, hM', ?_, ⟨n, ?_⟩, ?_⟩
  · funext i
    fin_cases i <;> simp [Matrix.mulVec, Matrix.dotProduct, Fin.sum_univ_four]
  · unfold dot at hun hvn hnn
    funext i
    fin_cases i <;> simp [Matrix.mulVec, Matrix.dotProduct, Fin.sum_univ_four]
    · linear_combination hun
    · linear_combination hvn
    · linear_combination hnn
  · intro p hp
    have h0 := congrFun hp 0
    have h1 := congrFun hp 1
    have h2 := congrFun hp 2
    simp [Matrix.mulVec, Matrix.dotProduct, Fin.sum_univ_four] at h0 h1 h2
    have e0 : dot u p = 0 := by unfold dot; linear_combination h0
    have e1 : dot v p = 0 := by unfold dot; linear_combination h1
    have e2 : dot n p = 1 := by unfold dot; linear_combination h2
    have hd : dot p p = 1 := by
      rw [dot_basis_expansion u v n p huu hvv hnn huv hun hvn, e0, e1, e2]
      ring
    refine ⟨hd, ?_⟩
    show Math.sqrt (dot p p) = 1
    rw [hd]
    exact exact_sqrt_one Math hM

theorem not_degenerate_real_zero :
    ¬ Degenerate (⟨Real.pi, Real.sqrt, Real.sin, Real.cos, Real.tan⟩ : JSMath ℝ) 0 0 0 := by
  intro h
  have h0 := h 0
  simp [rotatedUp_eq, rotatedAt_eq, cross, subtract] at h0
  norm_num at h0

/-- Witness of C13: the angles `(0, 0, 0)` in exact real arithmetic. -/
theorem C13_camera_on_unit_sphere_witness :
    JSMath.Exact (⟨Real.pi, Real.sqrt, Real.sin, Real.cos, Real.tan⟩ : JSMath ℝ) ∧
    ¬ Degenerate (⟨Real.pi, Real.sqrt, Real.sin, Real.cos, Real.tan⟩ : JSMath ℝ) 0 0 0 ∧
    ∃ M, GetCameraOrientationMatrix
        (⟨Real.pi, Real.sqrt, Real.sin, Real.cos, Real.tan⟩ : JSMath ℝ) 0 0 0 = some M ∧
      M.mulVec ![0, 0, 0, 1] = ![0, 0, -1, 1] ∧
      (∃ p : Fin 3 → ℝ, M.mulVec ![p 0, p 1, p 2, 1] = ![0, 0, 0, 1]) ∧
      ∀ p : Fin 3 → ℝ, M.mulVec ![p 0, p 1, p 2, 1] = ![0, 0, 0, 1] →
        dot p p = 1 ∧
        length (⟨Real.pi, Real.sqrt, Real.sin, Real.cos, Real.tan⟩ : JSMath ℝ) p = 1 :=
  ⟨real_exact, not_degenerate_real_zero,
    C13_camera_on_unit_sphere _ real_exact 0 0 0 not_degenerate_real_zero⟩

/-- C20, as stated, fails: for the angles `(0, 0, 1/2)`, in exact real arithmetic, the
function computes `u = (0,1,0)`, `v = (-1,0,0)`, `n = (0,0,1)`, and row 0 of its matrix
`A` is `(0,-1,0,0)`, not `(u, 0) = (0,1,0,0)`; row 1 is `(1,0,0,0)`, not `(v, 0)`. -/
theorem C20_counterexample :
    viewBasis (⟨Real.pi, Real.sqrt, Real.sin, Real.cos, Real.tan⟩ : JSMath ℝ) 0 0 (1 / 2) =
      some (![0, 1, 0], ![-1, 0, 0], ![0, 0, 1]) ∧
    (basisChange ![0, 1, 0] ![-1, 0, 0] ![0, 0, 1] : Matrix (Fin 4) (Fin 4) ℝ) 0 =
      ![0, -1, 0, 0] ∧
    (basisChange ![0, 1, 0] ![-1, 0, 0] ![0, 0, 1] : Matrix (Fin 4) (Fin 4) ℝ) 0 ≠
      ![0, 1, 0, 0] ∧
    (basisChange ![0, 1, 0] ![-1, 0, 0] ![0, 0, 1] : Matrix (Fin 4) (Fin 4) ℝ) 1 ≠
      ![-1, 0, 0, 0] := by
  refine ⟨viewBasis_real_quarter_turn, ?_, ?_, ?_⟩
  · funext j
    fin_cases j <;> simp [basisChange]
  · intro h
    have := congrFun h 1
    simp [basisChange] at this
    norm_num at this
  · intro h
    have := congrFun h 0
    simp [basisChange] at this
    norm_num at this

/-- C20, amended: whenever `GetCameraOrientationMatrix` computes the view basis
`u`, `v`, `n`, its matrix `A` has them as its columns, column 0 = `(u, 0)`,
column 1 = `(v, 0)`, column 2 = `(n, 0)`, column 3 = `(0,0,0,1)`, and the function
returns `inverse(A * T)`. -/
theorem C20_basis_vectors_are_columns {β : Type} [Field β] [DecidableEq β] (Math : JSMath β)
    (rx ry rz : β) (u v n : Fin 3 → β) (hb : viewBasis Math rx ry rz = some (u, v, n)) :
    (basisChange u v n).transpose 0 = ![u 0, u 1, u 2, 0] ∧
    (basisChange u v n).transpose 1 = ![v 0, v 1, v 2, 0] ∧
    (basisChange u v n).transpose 2 = ![n 0, n 1, n 2, 0] ∧
    (basisChange u v n).transpose 3 = ![0, 0, 0, 1] ∧
    GetCameraOrientationMatrix Math rx ry rz =
      inverse (mult (basisChange u v n) eyeTranslation) := by
  refine ⟨?_, ?_, ?_, ?_, ?_⟩
  · funext j
    fin_cases j <;> simp [basisChange, Matrix.transpose_apply]
  · funext j
    fin_cases j <;> simp [basisChange, Matrix.transpose_apply]
  · funext j
    fin_cases j <;> simp [basisChange, Matrix.transpose_apply]
  · funext j
    fin_cases j <;> simp [basisChange, Matrix.transpose_apply]
  · have hdef : GetCameraOrientationMatrix Math rx ry rz =
        (normalize Math (subtract ![0, 0, -1] (rotatedAt Math rx ry rz))).bind fun n =>
        (normalize Math (rotatedUp Math rx ry rz)).bind fun up =>
        (normalize Math (cross up n)).bind fun u =>
        (normalize Math (cross n u)).bind fun v =>
        inverse (mult (basisChange u v n) eyeTranslation) := rfl
    have hv : (viewBasis Math rx ry rz).bind (fun b =>
        inverse (mult (basisChange b.1 b.2.1 b.2.2) eyeTranslation)) =
        inverse (mult (basisChange u v n) eyeTranslation) := by
      rw [hb, Option.some_bind]
    rw [← hv, hdef]
    simp only [viewBasis, Option.bind_assoc, Option.some_bind]

/-- Witness of C20, amended: the angles `(0, 0, 1/2)` in exact real arithmetic. -/
theorem C20_basis_vectors_are_columns_witness :
    viewBasis (⟨Real.pi, Real.sqrt, Real.sin, Real.cos, Real.tan⟩ : JSMath ℝ) 0 0 (1 / 2) =
      some (![0, 1, 0], ![-1, 0, 0], ![0, 0, 1]) ∧
    (basisChange ![0, 1, 0] ![-1, 0, 0] ![0, 0, 1] : Matrix (Fin 4) (Fin 4) ℝ).transpose 0 =
      ![(![0, 1, 0] : Fin 3 → ℝ) 0, (![0, 1, 0] : Fin 3 → ℝ) 1, (![0, 1, 0] : Fin 3 → ℝ) 2, 0] ∧
    GetCameraOrientationMatrix (⟨Real.pi, Real.sqrt, Real.sin, Real.cos, Real.tan⟩ : JSMath ℝ)
        0 0 (1 / 2) =
      inverse (mult (basisChange ![0, 1, 0] ![-1, 0, 0] ![0, 0, 1]) eyeTranslation) :=
  ⟨viewBasis_real_quarter_turn,
    (C20_basis_vectors_are_columns _ 0 0 (1 / 2) _ _ _ viewBasis_real_quarter_turn).1,
    (C20_basis_vectors_are_columns _ 0 0 (1 / 2) _ _ _ viewBasis_real_quarter_turn).2.2.2.2⟩

theorem dot_rotatedAt (Math : JSMath α) (hM : Math.Exact) (rx ry rz : α) :
    dot (rotatedAt Math rx ry rz) (rotatedAt Math rx ry rz) = 4 := by
  have hx := hM.sin_sq_add_cos_sq (Math.PI * rx)
  have hy := hM.sin_sq_add_cos_sq (Math.PI * ry)
  rw [rotatedAt_eq]
  simp only [dot, Matrix.cons_val_zero, Matrix.cons_val_one, Matrix.head_cons,
    Matrix.cons_val_two, Matrix.tail_cons]
  linear_combination
    4 * (Math.cos (Math.PI * ry) * Math.cos (Math.PI * ry)) * hx + 4 * hy

theorem camera_none_of_degenerate (Math : JSMath α) (hM : Math.Exact) (rx ry rz : α)
    (hd : Degenerate Math rx ry rz) : GetCameraOrientationMatrix Math rx ry rz = none := by
  obtain ⟨e, he⟩ : ∃ e, e = subtract ![0, 0, -1] (rotatedAt Math rx ry rz) := ⟨_, rfl⟩
  have hepos : 0 < dot e e := by
    rw [he]
    exact lt_of_lt_of_le zero_lt_one (dot_eye_sub_at Math hM rx ry rz)
  obtain ⟨hLe0, _, hne⟩ := normalize_of_pos Math hM e hepos
  obtain ⟨n, hn⟩ : ∃ n : Fin 3 → α,
    n = ![e 0 / length Math e, e 1 / length Math e, e 2 / length Math e] := ⟨_, rfl⟩
  obtain ⟨up1, hup1⟩ : ∃ up1, up1 = rotatedUp Math rx ry rz := ⟨_, rfl⟩
  have hupos : 0 < dot up1 up1 := by
    rw [hup1, dot_rotatedUp Math hM]
    exact one_pos
  obtain ⟨hLu0, _, hnu⟩ := normalize_of_pos Math hM up1 hupos
  obtain ⟨up, hup⟩ : ∃ up : Fin 3 → α,
    up = ![up1 0 / length Math up1, up1 1 / length Math up1, up1 2 / length Math up1] :=
    ⟨_, rfl⟩
  have hzero : ∀ i : Fin 3, cross up n i = 0 := by
    intro i
    have hci : cross up n i = cross up1 e i / (length Math up1 * length Math e) := by
      rw [hup, hn]
      fin_cases i <;> simp [cross] <;> field_simp
    have hdi : cross up1 e i = 0 := by rw [hup1, he]; exact hd i
    rw [hci, hdi, zero_div]
  have hdef : GetCameraOrientationMatrix Math rx ry rz =
      (normalize Math (subtract ![0, 0, -1] (rotatedAt Math rx ry rz))).bind fun n =>
      (normalize Math (rotatedUp Math rx ry rz)).bind fun up =>
      (normalize Math (cross up n)).bind fun u =>
      (normalize Math (cross n u)).bind fun v =>
      inverse (mult (basisChange u v n) eyeTranslation) := rfl
  rw [hdef, ← he, hne, Option.some_bind, ← hn, ← hup1, hnu, Option.some_bind, ← hup,
    normalize_of_zero Math hM _ hzero]
  rfl

/-- C23: for all orbit angles, in exact arithmetic, the rotated `at` has length 2, `eye`
has length 1, `|eye - at| ≥ 1`, so `eye - at` is not the zero vector and its
normalisation does not divide by zero; and `GetCameraOrientationMatrix` divides by zero
exactly for the degenerate angles, those where the rotated `up` is parallel to
`eye - at`. -/
theorem C23_eye_minus_at_nonzero (Math : JSMath α) (hM : Math.Exact) (rx ry rz : α) :
    length Math (rotatedAt Math rx ry rz) = 2 ∧
    length Math ![0, 0, -1] = 1 ∧
    1 ≤ length Math (subtract ![0, 0, -1] (rotatedAt Math rx ry rz)) ∧
    (∃ i : Fin 3, subtract ![0, 0, -1] (rotatedAt Math rx ry rz) i ≠ 0) ∧
    (∃ n, normalize Math (subtract ![0, 0, -1] (rotatedAt Math rx ry rz)) = some n) ∧
    (GetCameraOrientationMatrix Math rx ry rz = none ↔ Degenerate Math rx ry rz) := by
  have he := dot_eye_sub_at Math hM rx ry rz
  have hepos : 0 < dot (subtract ![0, 0, -1] (rotatedAt Math rx ry rz))
      (subtract ![0, 0, -1] (rotatedAt Math rx ry rz)) := lt_of_lt_of_le zero_lt_one he
  obtain ⟨hL0, hL, hn⟩ := normalize_of_pos Math hM _ hepos
  refine ⟨?_, ?_, ?_, ?_, ⟨_, hn⟩, ?_⟩
  · have h4 : Math.sqrt 4 * Math.sqrt 4 = 4 := hM.sqrt_mul_self 4 (by norm_num)
    have h0 := hM.sqrt_nonneg 4
    show Math.sqrt (dot _ _) = 2
    rw [dot_rotatedAt Math hM]
    nlinarith
  · show Math.sqrt (dot _ _) = 1
    have : dot (![0, 0, -1] : Fin 3 → α) ![0, 0, -1] = 1 := by simp [dot]
    rw [this]
    exact exact_sqrt_one Math hM
  · have h0 : 0 ≤ length Math (subtract ![0, 0, -1] (rotatedAt Math rx ry rz)) :=
      hM.sqrt_nonneg _
    nlinarith
  · by_contra hcon
    push_neg at hcon
    have : dot (subtract ![0, 0, -1] (rotatedAt Math rx ry rz))
        (subtract ![0, 0, -1] (rotatedAt Math rx ry rz)) = 0 := by
      simp [dot, hcon]
    rw [this] at hepos
    exact lt_irrefl _ hepos
  · constructor
    · intro hnone
      by_contra hnd
      obtain ⟨u, v, n, _, _, _, _, _, _, hsome⟩ := camera_spec Math hM rx ry rz hnd
      rw [hsome] at hnone
      exact Option.some_ne_none _ hnone
    · exact camera_none_of_degenerate Math hM rx ry rz

/-- Witness of C23: the angles `(0, 0, 0)` in exact real arithmetic. -/
theorem C23_eye_minus_at_nonzero_witness :
    JSMath.Exact (⟨Real.pi, Real.sqrt, Real.sin, Real.cos, Real.tan⟩ : JSMath ℝ) ∧
    length (⟨Real.pi, Real.sqrt, Real.sin, Real.cos, Real.tan⟩ : JSMath ℝ)
      (rotatedAt (⟨Real.pi, Real.sqrt, Real.sin, Real.cos, Real.tan⟩ : JSMath ℝ) 0 0 0) = 2 ∧
    1 ≤ length (⟨Real.pi, Real.sqrt, Real.sin, Real.cos, Real.tan⟩ : JSMath ℝ)
      (subtract ![0, 0, -1]
        (rotatedAt (⟨Real.pi, Real.sqrt, Real.sin, Real.cos, Real.tan⟩ : JSMath ℝ) 0 0 0)) :=
  ⟨real_exact, (C23_eye_minus_at_nonzero _ real_exact 0 0 0).1,
    (C23_eye_minus_at_nonzero _ real_exact 0 0 0).2.2.1⟩

end Camera

/-! ## Properties of the projection -/

/-- C10: `GetPerspectiveMatrix` takes the tangent of the whole angle `fovy`, not of
`fovy / 2`. For `fovy = 45`, `near = 1`, `far = 10` on a square canvas it computes
`top = tan 45° = 1` and returns the matrix with rows `(1,0,0,0)`, `(0,1,0,0)`,
`(0,0,-11/9,-20/9)`, `(0,0,-1,0)`, while `near * tan(fovy/2)` is `tan 22.5°`, which is
not `1`. -/
theorem C10_perspective_full_angle :
    GetPerspectiveMatrix (⟨Real.pi, Real.sqrt, Real.sin, Real.cos, Real.tan⟩ : JSMath ℝ)
        45 1 10 1 1 =
      some !![1, 0, 0, 0; 0, 1, 0, 0; 0, 0, -11 / 9, -20 / 9; 0, 0, -1, 0] ∧
    (1 : ℝ) * Real.tan (45 / 2 * Real.pi / 180) ≠ 1 * Real.tan (45 * Real.pi / 180) := by
  have h45 : (45 : ℝ) * Real.pi / 180 = Real.pi / 4 := by ring
  have htan : Real.tan (45 * Real.pi / 180) = 1 := by rw [h45, Real.tan_pi_div_four]
  constructor
  · simp only [GetPerspectiveMatrix, htan]
    norm_num
  · rw [htan]
    have hlt : Real.tan (45 / 2 * Real.pi / 180) < Real.tan (Real.pi / 4) :=
      Real.tan_lt_tan_of_lt_of_lt_pi_div_two (by linarith [Real.pi_pos])
        (by linarith [Real.pi_pos]) (by linarith [Real.pi_pos])
    rw [Real.tan_pi_div_four] at hlt
    linarith


/-- C11: whenever no division by zero occurs (the canvas height, `tp`, `rgt` and
`far - near` are not zero), `GetPerspectiveMatrix` returns the matrix with entry
`(0,0) = near/rgt`, `(1,1) = near/tp`, `(2,2) = -(far+near)/(far-near)`,
`(2,3) = -2*far*near/(far-near)`, `(3,2) = -1` and every other entry `0`, where
`tp = near * tan(fovy * PI / 180)` and `rgt = tp * (width / height)` are the values
computed inside the function. -/
theorem C11_perspective_entries {α : Type} [Field α] [DecidableEq α] (Math : JSMath α)
    (fovy near far canvasWidth canvasHeight : α)
    (hheight : canvasHeight ≠ 0)
    (htp : near * Math.tan (fovy * Math.PI / 180) ≠ 0)
    (hrgt : near * Math.tan (fovy * Math.PI / 180) * (canvasWidth / canvasHeight) ≠ 0)
    (hfar : far - near ≠ 0) :
    ∃ P, GetPerspectiveMatrix Math fovy near far canvasWidth canvasHeight = some P ∧
      P 0 0 = near / (near * Math.tan (fovy * Math.PI / 180) * (canvasWidth / canvasHeight)) ∧
      P 1 1 = near / (near * Math.tan (fovy * Math.PI / 180)) ∧
      P 2 2 = -(far + near) / (far - near) ∧
      P 2 3 = -2 * far * near / (far - near) ∧
      P 3 2 = -1 ∧
      P 0 1 = 0 ∧ P 0 2 = 0 ∧ P 0 3 = 0 ∧
      P 1 0 = 0 ∧ P 1 2 = 0 ∧ P 1 3 = 0 ∧
      P 2 0 = 0 ∧ P 2 1 = 0 ∧
      P 3 0 = 0 ∧ P 3 1 = 0 ∧ P 3 3 = 0 := by
  refine ⟨!![near / (near * Math.tan (fovy * Math.PI / 180) * (canvasWidth / canvasHeight)),
        0, 0, 0;
      0, near / (near * Math.tan (fovy * Math.PI / 180)), 0, 0;
      0, 0, -(far + near) / (far - near), (-2 * far * near) / (far - near);
      0, 0, -1, 0], ?_, rfl, rfl, rfl, rfl, rfl, rfl, rfl, rfl, rfl, rfl, rfl, rfl, rfl, rfl,
    rfl, rfl⟩
  unfold GetPerspectiveMatrix
  rw [if_neg hheight, if_neg (by simp [htp, hrgt, hfar])]

/-- Witness of C11: `fovy = 45`, `near = 1`, `far = 10` on a 4 by 2 canvas, in exact
real arithmetic. -/
theorem C11_perspective_entries_witness :
    (2 : ℝ) ≠ 0 ∧
    (1 : ℝ) * Real.tan (45 * Real.pi / 180) ≠ 0 ∧
    (1 : ℝ) * Real.tan (45 * Real.pi / 180) * (4 / 2) ≠ 0 ∧
    (10 : ℝ) - 1 ≠ 0 ∧
    ∃ P, GetPerspectiveMatrix (⟨Real.pi, Real.sqrt, Real.sin, Real.cos, Real.tan⟩ : JSMath ℝ)
        45 1 10 4 2 = some P ∧
      P 0 0 = 1 / ((1 : ℝ) * Real.tan (45 * Real.pi / 180) * (4 / 2)) ∧
      P 1 1 = 1 / ((1 : ℝ) * Real.tan (45 * Real.pi / 180)) ∧
      P 2 2 = -(10 + 1) / (10 - 1) ∧
      P 2 3 = -2 * 10 * 1 / (10 - 1) ∧
      P 3 2 = -1 ∧
      P 0 1 = 0 ∧ P 0 2 = 0 ∧ P 0 3 = 0 ∧
      P 1 0 = 0 ∧ P 1 2 = 0 ∧ P 1 3 = 0 ∧
      P 2 0 = 0 ∧ P 2 1 = 0 ∧
      P 3 0 = 0 ∧ P 3 1 = 0 ∧ P 3 3 = 0 :=
  have h45 : (45 : ℝ) * Real.pi / 180 = Real.pi / 4 := by ring
  have htan : Real.tan (45 * Real.pi / 180) = 1 := by rw [h45, Real.tan_pi_div_four]
  have h1 : (2 : ℝ) ≠ 0 := by norm_num
  have h2 : (1 : ℝ) * Real.tan (45 * Real.pi / 180) ≠ 0 := by rw [htan]; norm_num
  have h3 : (1 : ℝ) * Real.tan (45 * Real.pi / 180) * (4 / 2) ≠ 0 := by rw [htan]; norm_num
  have h4 : (10 : ℝ) - 1 ≠ 0 := by norm_num
  ⟨h1, h2, h3, h4,
    C11_perspective_entries (⟨Real.pi, Real.sqrt, Real.sin, Real.cos, Real.tan⟩ : JSMath ℝ)
      45 1 10 4 2 h1 h2 h3 h4⟩

/-- C22: `render` calls `GetPerspectiveMatrix(45, -0.1, 0.9)`; in exact arithmetic, where
`tan 45° = 1`, on a canvas of aspect ratio `a = width / height ≠ 0`, the result is the
matrix with rows `(1/a, 0, 0, 0)`, `(0, 1, 0, 0)`, `(0, 0, -0.8, 0.18)`, `(0, 0, -1, 0)`:
the negative `near` cancels in the entries `(0,0)` and `(1,1)` and the entry `(2,3)` is
positive. -/
theorem C22_render_projection {α : Type} [LinearOrderedField α] (Math : JSMath α)
    (htan : Math.tan (45 * Math.PI / 180) = 1) (canvasWidth canvasHeight : α)
    (hheight : canvasHeight ≠ 0) (hwidth : canvasWidth ≠ 0) :
    renderPerspMatrix Math canvasWidth canvasHeight =
      GetPerspectiveMatrix Math 45 (-0.1) 0.9 canvasWidth canvasHeight ∧
    renderPerspMatrix Math canvasWidth canvasHeight =
      some !![1 / (canvasWidth / canvasHeight), 0, 0, 0;
              0, 1, 0, 0;
              0, 0, -0.8, 0.18;
              0, 0, -1, 0] ∧
    (0 : α) < 0.18 := by
  refine ⟨rfl, ?_, by norm_num⟩
  have hrgt : ¬ ((-0.1 : α) * 1 * (canvasWidth / canvasHeight) = 0 ∨ (-0.1 : α) * 1 = 0 ∨
      (0.9 : α) - -0.1 = 0) := by
    have ha : canvasWidth / canvasHeight ≠ 0 := div_ne_zero hwidth hheight
    have h1 : (-0.1 : α) * 1 ≠ 0 := by norm_num
    have h2 : (0.9 : α) - -0.1 ≠ 0 := by norm_num
    have h3 : (-0.1 : α) * 1 * (canvasWidth / canvasHeight) ≠ 0 := mul_ne_zero h1 ha
    tauto
  unfold renderPerspMatrix GetPerspectiveMatrix
  simp only [htan]
  rw [if_neg hheight, if_neg hrgt]
  congr 1
  ext i j
  fin_cases i <;> fin_cases j <;> simp
  · field_simp
    ring
  · norm_num
  · norm_num
  · norm_num

/-- Witness of C22: exact real arithmetic on a 4 by 2 canvas. -/
theorem C22_render_projection_witness :
    Real.tan (45 * Real.pi / 180) = 1 ∧ (2 : ℝ) ≠ 0 ∧ (4 : ℝ) ≠ 0 ∧
    renderPerspMatrix (⟨Real.pi, Real.sqrt, Real.sin, Real.cos, Real.tan⟩ : JSMath ℝ) 4 2 =
      some !![1 / (4 / 2), 0, 0, 0;
              0, 1, 0, 0;
              0, 0, -0.8, 0.18;
              0, 0, -1, 0] :=
  have htan : Real.tan (45 * Real.pi / 180) = 1 := by
    rw [show (45 : ℝ) * Real.pi / 180 = Real.pi / 4 by ring, Real.tan_pi_div_four]
  have h2 : (2 : ℝ) ≠ 0 := by norm_num
  have h4 : (4 : ℝ) ≠ 0 := by norm_num
  ⟨htan, h2, h4,
    (C22_render_projection (⟨Real.pi, Real.sqrt, Real.sin, Real.cos, Real.tan⟩ : JSMath ℝ)
      htan 4 2 h2 h4).2.1⟩

end Project2
